import Mathlib

/-!
# Irrigation decision core: ET0 model and decision engine

Shallow embedding of `examples/c/decision_logic.c` and `examples/c/et0_calculator.c`.

## Numeric model

* C `double` is IEEE-754 binary64, evaluated operation by operation with
  round-to-nearest, ties-to-even (no fused operations, no extended precision).
  A value is `nan`, a signed infinity, or a finite rational; every arithmetic
  operation computes the exact rational result and rounds it with
  `Double.round`.  The type does not restrict finite values to the
  representable ones, so statements over all `Double` cover a superset of the
  binary64 inputs; the scenarios used as concrete inputs are built from
  rounded constants.  The two zeros are identified: they compare equal and the
  programs never divide by a computed zero except through the result of
  `pow`, where only the sign of an infinity could differ.
* C `int` is 32 bits wide.  Integer fields are mathematical integers (the
  programs do no integer arithmetic on them); the conversion `(int) x`
  truncates toward zero and is undefined (here: `none`) when `x` is not finite
  or the truncated value does not fit in 32 bits, so `calculate_duration` and
  `make_decision` return an `Option`.
* `exp` and `pow` come from the C math library, which is not part of the
  repository; they are passed in as a `Libm` record.  Statements that depend
  on the values these functions return assume `Libm.inRange`, which only asks
  that the results lie in intervals containing the values of the real
  functions.
-/

namespace Umbrella

/-! ## IEEE-754 binary64 -/

/-- A binary64 value: not-a-number, an infinity (`neg = true` for the negative
one) or a finite number given by its exact rational value. -/
inductive Double where
  | nan : Double
  | inf (neg : Bool) : Double
  | fin (q : ℚ) : Double
deriving DecidableEq

/-- Position of the leading bit of `n`, by repeated halving (`steps` bounds the
number of halvings). -/
def log2Aux : ℕ → ℕ → ℕ
  | 0, _ => 0
  | steps + 1, n => if n < 2 then 0 else log2Aux steps (n / 2) + 1

/-- Position of the leading bit: `2^(log2Nat n) ≤ n < 2^(log2Nat n + 1)` for `n ≥ 1`. -/
def log2Nat (n : ℕ) : ℕ := log2Aux n n

/-- Binade of a positive rational: the integer `e` with `2^e ≤ q < 2^(e+1)`. -/
def ilog2 (q : ℚ) : ℤ :=
  let e0 : ℤ := (log2Nat q.num.natAbs : ℤ) - (log2Nat q.den : ℤ)
  if q < (2 : ℚ) ^ e0 then e0 - 1 else e0

/-- Round a rational to the nearest integer, ties to the even one. -/
def roundHalfEven (x : ℚ) : ℤ :=
  if x - ⌊x⌋ < 1 / 2 then ⌊x⌋
  else if 1 / 2 < x - ⌊x⌋ then ⌊x⌋ + 1
  else if ⌊x⌋ % 2 = 0 then ⌊x⌋ else ⌊x⌋ + 1

/-- Exponent of the unit in the last place for a positive magnitude: 53
significant bits for normal numbers, the fixed spacing `2^-1074` for
subnormals. -/
def quantum (q : ℚ) : ℤ := max (ilog2 q - 52) (-1074)

/-- Nearest multiple of the quantum to a positive magnitude. -/
def roundMag (q : ℚ) : ℚ := (roundHalfEven (q / (2 : ℚ) ^ quantum q) : ℚ) * (2 : ℚ) ^ quantum q

/-- Round-to-nearest-even of an exact result to binary64, overflowing to an
infinity when the rounded magnitude reaches `2^1024`. -/
def Double.round (q : ℚ) : Double :=
  if q = 0 then .fin 0
  else if (2 : ℚ) ^ (1024 : ℕ) ≤ roundMag |q| then .inf (decide (q < 0))
  else .fin (if 0 < q then roundMag |q| else -roundMag |q|)

/-- A floating constant of the source text, converted to binary64. -/
def lit (q : ℚ) : Double := Double.round q

/-- Conversion of an `int` to `double`. -/
def ofInt (n : ℤ) : Double := Double.round (n : ℚ)

/-- Unary minus. -/
def Double.neg : Double → Double
  | .nan => .nan
  | .inf s => .inf (!s)
  | .fin q => .fin (-q)

/-- Addition `x + y`. -/
def Double.add : Double → Double → Double
  | .nan, _ => .nan
  | _, .nan => .nan
  | .inf s, .inf t => if s = t then .inf s else .nan
  | .inf s, .fin _ => .inf s
  | .fin _, .inf t => .inf t
  | .fin a, .fin b => Double.round (a + b)

/-- Subtraction `x - y`. -/
def Double.sub (x y : Double) : Double := Double.add x (Double.neg y)

/-- Multiplication `x * y`. -/
def Double.mul : Double → Double → Double
  | .nan, _ => .nan
  | _, .nan => .nan
  | .inf s, .inf t => .inf (xor s t)
  | .inf s, .fin b => if b = 0 then .nan else .inf (xor s (decide (b < 0)))
  | .fin a, .inf t => if a = 0 then .nan else .inf (xor (decide (a < 0)) t)
  | .fin a, .fin b => Double.round (a * b)

/-- Division `x / y`. -/
def Double.div : Double → Double → Double
  | .nan, _ => .nan
  | _, .nan => .nan
  | .inf _, .inf _ => .nan
  | .inf s, .fin b => .inf (xor s (decide (b < 0)))
  | .fin _, .inf _ => .fin 0
  | .fin a, .fin b =>
    if b = 0 then (if a = 0 then .nan else .inf (decide (a < 0)))
    else Double.round (a / b)

/-- Comparison `x < y`; false as soon as an operand is a NaN. -/
def Double.lt : Double → Double → Bool
  | .nan, _ => false
  | _, .nan => false
  | .inf s, .inf t => s && !t
  | .inf s, .fin _ => s
  | .fin _, .inf t => !t
  | .fin a, .fin b => decide (a < b)

/-- Comparison `x <= y`; false as soon as an operand is a NaN. -/
def Double.le : Double → Double → Bool
  | .nan, _ => false
  | _, .nan => false
  | .inf s, .inf t => s || !t
  | .inf s, .fin _ => s
  | .fin _, .inf t => !t
  | .fin a, .fin b => decide (a ≤ b)

/-- Comparison `x > y`. -/
def Double.gt (x y : Double) : Bool := Double.lt y x

/-- Comparison `x >= y`. -/
def Double.ge (x y : Double) : Bool := Double.le y x

/-- Comparison `x == y`; false as soon as an operand is a NaN. -/
def Double.eq : Double → Double → Bool
  | .nan, _ => false
  | _, .nan => false
  | .inf s, .inf t => s == t
  | .inf _, .fin _ => false
  | .fin _, .inf _ => false
  | .fin a, .fin b => decide (a = b)

/-- Truncation toward zero of a rational. -/
def truncQ (q : ℚ) : ℤ := if 0 ≤ q then ⌊q⌋ else ⌈q⌉

/-- The conversion `(int) x`: defined only when `x` is finite and its integral
part fits in a 32-bit `int`. -/
def Double.toInt : Double → Option ℤ
  | .fin q => if -2147483648 ≤ truncQ q ∧ truncQ q ≤ 2147483647 then some (truncQ q) else none
  | _ => none

/-! ## decision_logic.c -/

/-- Operating mode (`IrrigationMode`). -/
inductive IrrigationMode where
  | MODE_NORMAL
  | MODE_CONSERVATION
  | MODE_EXTREME
deriving DecidableEq

/-- Snapshot the engine decides on (`SystemConditions`). -/
structure SystemConditions where
  et0 : Double
  temperature : Double
  humidity : Double
  hour : ℤ
  power_available : Bool
  water_level : ℤ
  mode : IrrigationMode

/-- Configured duration bounds (`DecisionEngine`). -/
structure DecisionEngine where
  min_duration : ℤ
  max_duration : ℤ
deriving DecidableEq

/-- The constructor writes both bounds as given. -/
def engine_init (min_duration max_duration : ℤ) : DecisionEngine :=
  { min_duration := min_duration, max_duration := max_duration }

/-- Preferred irrigation windows. -/
def is_optimal_time (hour : ℤ) : Bool :=
  (decide (hour ≥ 7) && decide (hour ≤ 9)) || (decide (hour ≥ 17) && decide (hour ≤ 19))

/-- Ordered rule cascade deciding whether to irrigate. -/
def should_irrigate (_engine : DecisionEngine) (cond : SystemConditions) : Bool :=
  if Double.lt cond.et0 (lit 2) then false
  else if decide (cond.water_level < 500) then false
  else if !cond.power_available && Double.lt cond.et0 (lit 4) then false
  else if is_optimal_time cond.hour then Double.gt cond.et0 (lit (5 / 2))
  else if Double.gt cond.temperature (ofInt 35) then Double.gt cond.et0 (lit 3)
  else if cond.mode = IrrigationMode.MODE_EXTREME then
    Double.gt cond.et0 (lit 5) && is_optimal_time cond.hour
  else Double.gt cond.et0 (lit (7 / 2))

/-- One step `base_duration = (int)(base_duration * k)`. -/
def scale (base_duration : ℤ) (k : Double) : Option ℤ :=
  (Double.mul (ofInt base_duration) k).toInt

/-- The duration before clamping (lines 69-87): the first conversion followed
by the four optional truncating multiplications, in source order. -/
def raw_duration (cond : SystemConditions) : Option ℤ :=
  ((Double.mul (Double.sub cond.et0 (lit 2)) (ofInt 10)).toInt).bind fun base_duration =>
  (if Double.gt cond.temperature (ofInt 35) then scale base_duration (lit (13 / 10))
    else some base_duration).bind fun base_duration =>
  (if cond.mode = IrrigationMode.MODE_CONSERVATION then scale base_duration (lit (7 / 10))
    else if cond.mode = IrrigationMode.MODE_EXTREME then scale base_duration (lit (1 / 2))
    else some base_duration).bind fun base_duration =>
  (if !cond.power_available then scale base_duration (lit (4 / 5))
    else some base_duration).bind fun base_duration =>
  (if is_optimal_time cond.hour then scale base_duration (lit (11 / 10))
    else some base_duration)

/-- The final clamp of `calculate_duration` (lines 89-95). -/
def clamp (engine : DecisionEngine) (base_duration : ℤ) : ℤ :=
  if base_duration < engine.min_duration then engine.min_duration
  else if base_duration > engine.max_duration then engine.max_duration
  else base_duration

/-- Irrigation time in seconds; `none` when a conversion to `int` is undefined. -/
def calculate_duration (engine : DecisionEngine) (cond : SystemConditions) : Option ℤ :=
  (raw_duration cond).map (clamp engine)

/-- The pair `(*should_water, *duration)` written by `make_decision`. -/
def make_decision (engine : DecisionEngine) (cond : SystemConditions) : Option (Bool × ℤ) :=
  if should_irrigate engine cond then
    (calculate_duration engine cond).map (fun duration => (true, duration))
  else some (false, 0)

/-! ## et0_calculator.c -/

/-- The two functions of the C math library the calculator calls. -/
structure Libm where
  exp : Double → Double
  pow : Double → Double → Double

/-- Site constants (`ET0Calculator`). -/
structure ET0Calculator where
  wind_speed : Double
  altitude : Double
  pressure : Double
  gamma : Double

/-- Store the site parameters and derive pressure and psychrometric constant. -/
def et0_init (m : Libm) (wind_speed altitude : Double) : ET0Calculator :=
  let pressure :=
    Double.mul (lit (1013 / 10))
      (m.pow (Double.div (Double.sub (lit 293) (Double.mul (lit (65 / 10000)) altitude)) (lit 293))
        (lit (526 / 100)))
  { wind_speed := wind_speed
    altitude := altitude
    pressure := pressure
    gamma := Double.mul (lit (665 / 1000000)) pressure }

/-- Saturation vapour pressure at a temperature. -/
def saturation_vapor_pressure (m : Libm) (temperature : Double) : Double :=
  Double.mul (lit (6108 / 10000))
    (m.exp (Double.div (Double.mul (lit (1727 / 100)) temperature)
      (Double.add temperature (lit (2373 / 10)))))

/-- Slope of the vapour pressure curve. -/
def slope_vapor_pressure (m : Libm) (temperature : Double) : Double :=
  let es := saturation_vapor_pressure m temperature
  Double.div (Double.mul (ofInt 4098) es)
    (m.pow (Double.add temperature (lit (2373 / 10))) (ofInt 2))

/-- Actual vapour pressure from relative humidity. -/
def actual_vapor_pressure (m : Libm) (temperature relative_humidity : Double) : Double :=
  Double.mul (Double.div relative_humidity (lit 100)) (saturation_vapor_pressure m temperature)

/-- Range check of the three weather inputs. -/
def validate_inputs (temp humidity radiation : Double) : Bool :=
  if Double.lt temp (ofInt (-10)) || Double.gt temp (ofInt 50) then false
  else if Double.lt humidity (ofInt 0) || Double.gt humidity (ofInt 100) then false
  else if Double.lt radiation (ofInt 0) then false
  else true

/-- Reference evapotranspiration, or `-1` for a rejected computation. -/
def calculate_et0 (m : Libm) (calculator : ET0Calculator) (temperature humidity radiation : Double) :
    Double :=
  if !validate_inputs temperature humidity radiation then ofInt (-1)
  else
    let delta := slope_vapor_pressure m temperature
    let es := saturation_vapor_pressure m temperature
    let ea := actual_vapor_pressure m temperature humidity
    let numerator :=
      Double.add (Double.mul (Double.mul (lit (408 / 1000)) delta) radiation)
        (Double.mul
          (Double.mul
            (Double.mul calculator.gamma
              (Double.div (ofInt 900) (Double.add temperature (lit (27315 / 100)))))
            calculator.wind_speed)
          (Double.sub es ea))
    let denominator :=
      Double.add delta
        (Double.mul calculator.gamma (Double.add (ofInt 1) (Double.mul (lit (34 / 100)) calculator.wind_speed)))
    if Double.eq denominator (ofInt 0) then ofInt (-1)
    else
      let et0 := Double.div numerator denominator
      if Double.ge et0 (ofInt 0) && Double.le et0 (ofInt 15) then et0 else ofInt (-1)

/-! ## The scenarios of `main` in decision_logic.c -/

/-- Scenario 1 of `main`: `{4.5, 28, 60, 8, true, 3000, MODE_NORMAL}`. -/
def scenario1 : SystemConditions :=
  { et0 := lit (9 / 2), temperature := ofInt 28, humidity := ofInt 60, hour := 8,
    power_available := true, water_level := 3000, mode := IrrigationMode.MODE_NORMAL }

/-- Scenario 2 of `main`: `{6.0, 35, 45, 14, true, 2000, MODE_NORMAL}`. -/
def scenario2 : SystemConditions :=
  { et0 := lit 6, temperature := ofInt 35, humidity := ofInt 45, hour := 14,
    power_available := true, water_level := 2000, mode := IrrigationMode.MODE_NORMAL }

/-- Scenario 3 of `main`: `{3.0, 25, 70, 18, false, 1500, MODE_NORMAL}`. -/
def scenario3 : SystemConditions :=
  { et0 := lit 3, temperature := ofInt 25, humidity := ofInt 70, hour := 18,
    power_available := false, water_level := 1500, mode := IrrigationMode.MODE_NORMAL }

/-- Scenario 4 of `main`: `{7.5, 38, 40, 12, true, 4000, MODE_EXTREME}`. -/
def scenario4 : SystemConditions :=
  { et0 := lit (15 / 2), temperature := ofInt 38, humidity := ofInt 40, hour := 12,
    power_available := true, water_level := 4000, mode := IrrigationMode.MODE_EXTREME }

/-! ## The calculator as state, and the single-expression duration of the spec -/

/-- The call `calculate_et0(calc, ...)` as a transformer of the state `*calc`:
the body reads `calc->gamma` and `calc->wind_speed` and assigns nothing through
`calc`, so the calculator after the call is the one before it. -/
def calculate_et0_call (m : Libm) (calculator : ET0Calculator)
    (temperature humidity radiation : Double) : ET0Calculator × Double :=
  (calculator, calculate_et0 m calculator temperature humidity radiation)

/-- The calculator after a sequence of calls, each given by its
`(temperature, humidity, radiation)`. -/
def after_calls (m : Libm) (calculator : ET0Calculator) :
    List (Double × Double × Double) → ET0Calculator
  | [] => calculator
  | (t, h, r) :: rest => after_calls m (calculate_et0_call m calculator t h r).1 rest

/-- Product of the multipliers that apply to the conditions, in source order,
computed in `double` without any intermediate conversion to `int`. -/
def multiplier_product (cond : SystemConditions) : Double :=
  let p := lit 1
  let p := if Double.gt cond.temperature (ofInt 35) then Double.mul p (lit (13 / 10)) else p
  let p :=
    if cond.mode = IrrigationMode.MODE_CONSERVATION then Double.mul p (lit (7 / 10))
    else if cond.mode = IrrigationMode.MODE_EXTREME then Double.mul p (lit (1 / 2))
    else p
  let p := if !cond.power_available then Double.mul p (lit (4 / 5)) else p
  if is_optimal_time cond.hour then Double.mul p (lit (11 / 10)) else p

/-- The refactoring the spec warns against: the base duration times the
product of the applicable multipliers, truncated once, then clamped. -/
def single_truncation_duration (engine : DecisionEngine) (cond : SystemConditions) :
    Option ℤ :=
  ((Double.mul (Double.sub cond.et0 (lit 2)) (ofInt 10)).toInt).bind fun base_duration =>
  ((Double.mul (ofInt base_duration) (multiplier_product cond)).toInt).map (clamp engine)

/-- Conditions on which truncating after every step is visible: ET0 4.4,
temperature 25, hour 12, no power, water 1000, mode Conservation. -/
def truncation_scenario : SystemConditions :=
  { et0 := lit (22 / 5), temperature := ofInt 25, humidity := ofInt 50, hour := 12,
    power_available := false, water_level := 1000, mode := IrrigationMode.MODE_CONSERVATION }

/-! ## Numerator and denominator of `calculate_et0`; range conditions on the math library -/

/-- The `numerator` of `calculate_et0` (lines 56-58). -/
def et0_numerator (m : Libm) (calculator : ET0Calculator)
    (temperature humidity radiation : Double) : Double :=
  Double.add
    (Double.mul (Double.mul (lit (408 / 1000)) (slope_vapor_pressure m temperature)) radiation)
    (Double.mul
      (Double.mul
        (Double.mul calculator.gamma
          (Double.div (ofInt 900) (Double.add temperature (lit (27315 / 100)))))
        calculator.wind_speed)
      (Double.sub (saturation_vapor_pressure m temperature)
        (actual_vapor_pressure m temperature humidity)))

/-- The `denominator` of `calculate_et0` (line 60). -/
def et0_denominator (m : Libm) (calculator : ET0Calculator) (temperature : Double) : Double :=
  Double.add (slope_vapor_pressure m temperature)
    (Double.mul calculator.gamma
      (Double.add (ofInt 1) (Double.mul (lit (34 / 100)) calculator.wind_speed)))

/-- Finite values between two rationals. -/
def Double.within (lo hi : ℚ) (x : Double) : Prop :=
  ∃ q, x = Double.fin q ∧ lo ≤ q ∧ q ≤ hi

/-- Largest finite binary64 value, `(2^53 - 1) * 2^971`. -/
def dbl_max : ℚ := ((2 : ℚ) ^ (53 : ℕ) - 1) * (2 : ℚ) ^ (971 : ℕ)

/-- Range conditions on the C math library, which is outside the repository:
on the arguments that `et0_init` and `calculate_et0` pass, `exp` and `pow`
return values inside an interval that contains the values of the real function
(`e^x` on `[-1, 4]` lies in `[1/4, 64]`, `x^2` on `[227, 288]` in
`[2^15, 2^17]`, `x^5.26` is at least `2^-58` for `x ≥ 1/2048` and at most `2`
for `x ≤ 33/32`). -/
def Libm.inRange (m : Libm) : Prop :=
  (∀ x, Double.within (-1) 4 x → Double.within (1 / 4) 64 (m.exp x)) ∧
  (∀ x, Double.within 227 288 x → Double.within 32768 131072 (m.pow x (ofInt 2))) ∧
  (∀ x, Double.le (Double.fin (1 / 2048)) x = true →
    Double.le (Double.fin (1 / 288230376151711744)) (m.pow x (lit (526 / 100))) = true) ∧
  (∀ x, Double.within (1 / 2048) (33 / 32) x →
    Double.within (1 / 288230376151711744) 2 (m.pow x (lit (526 / 100))))

/-- A stand-in math library for concrete evaluations.  It is exact at the
arguments those evaluations use (`exp(0) = 1` and `pow(1, y) = 1`, which the C
standard fixes, and `pow(x, 2)` as one rounded multiplication) and stays
inside the ranges of `Libm.inRange` elsewhere. -/
def libm_standin : Libm :=
  { exp := fun _ => Double.fin 1
    pow := fun x y => if y = ofInt 2 then Double.mul x x else Double.fin 1 }

/-! ## Constants of the source as binary64 values -/

theorem lit_two : lit 2 = Double.fin 2 := by decide!

theorem lit_three : lit 3 = Double.fin 3 := by decide!

theorem lit_four : lit 4 = Double.fin 4 := by decide!

theorem lit_five : lit 5 = Double.fin 5 := by decide!

theorem lit_five_halves : lit (5 / 2) = Double.fin (5 / 2) := by decide!

theorem lit_seven_halves : lit (7 / 2) = Double.fin (7 / 2) := by decide!

theorem ofInt_thirty_five : ofInt 35 = Double.fin 35 := by decide!

theorem ofInt_zero : ofInt 0 = Double.fin 0 := by decide!

theorem ofInt_fifteen : ofInt 15 = Double.fin 15 := by decide!

theorem ofInt_neg_one : ofInt (-1) = Double.fin (-1) := by decide!

theorem ofInt_neg_ten : ofInt (-10) = Double.fin (-10) := by decide!

theorem ofInt_fifty : ofInt 50 = Double.fin 50 := by decide!

theorem ofInt_hundred : ofInt 100 = Double.fin 100 := by decide!

/-! ## The clamp -/

theorem clamp_ge_min (e : DecisionEngine) (b : ℤ) (h : e.min_duration ≤ e.max_duration) :
    e.min_duration ≤ clamp e b := by
  unfold clamp
  split_ifs <;> omega

theorem clamp_le_max (e : DecisionEngine) (b : ℤ) (h : e.min_duration ≤ e.max_duration) :
    clamp e b ≤ e.max_duration := by
  unfold clamp
  split_ifs <;> omega

/-- Shape of the outputs of `make_decision`: either the rule cascade said no
and the pair is `(false, 0)`, or it said yes and the duration is the clamp of
the raw duration. -/
theorem make_decision_some (e : DecisionEngine) (c : SystemConditions) (w : Bool) (d : ℤ)
    (h : make_decision e c = some (w, d)) :
    (should_irrigate e c = false ∧ w = false ∧ d = 0) ∨
      (should_irrigate e c = true ∧ w = true ∧ ∃ b, raw_duration c = some b ∧ d = clamp e b) := by
  unfold make_decision at h
  by_cases hs : should_irrigate e c = true
  · right
    rw [if_pos hs] at h
    unfold calculate_duration at h
    cases hr : raw_duration c with
    | none => rw [hr] at h; simp at h
    | some b =>
      rw [hr] at h
      simp only [Option.map_some', Option.some.injEq, Prod.mk.injEq] at h
      exact ⟨hs, h.1.symm, b, rfl, h.2.symm⟩
  · left
    rw [if_neg hs] at h
    simp only [Option.some.injEq, Prod.mk.injEq] at h
    exact ⟨by simpa using hs, h.1.symm, h.2.symm⟩


/-! ## Rounding is monotone -/

theorem log2Aux_spec (steps : ℕ) : ∀ n : ℕ, 1 ≤ n → n ≤ steps →
    2 ^ log2Aux steps n ≤ n ∧ n < 2 ^ (log2Aux steps n + 1) := by
  induction steps with
  | zero => intro n h1 h2; omega
  | succ k ih =>
    intro n h1 h2
    unfold log2Aux
    by_cases hn : n < 2
    · rw [if_pos hn]
      have : n = 1 := by omega
      subst this
      simp
    · rw [if_neg hn]
      have hd1 : 1 ≤ n / 2 := by omega
      have hd2 : n / 2 ≤ k := by omega
      obtain ⟨ha, hb⟩ := ih (n / 2) hd1 hd2
      constructor
      · have : 2 ^ log2Aux k (n / 2) * 2 ≤ n := by omega
        rw [pow_succ]
        exact this
      · have : n < 2 ^ (log2Aux k (n / 2) + 1) * 2 := by omega
        rw [pow_succ]
        exact this

theorem log2Nat_spec (n : ℕ) (h : 1 ≤ n) :
    2 ^ log2Nat n ≤ n ∧ n < 2 ^ (log2Nat n + 1) :=
  log2Aux_spec n n h le_rfl

theorem ilog2_spec (q : ℚ) (hq : 0 < q) :
    (2 : ℚ) ^ ilog2 q ≤ q ∧ q < (2 : ℚ) ^ (ilog2 q + 1) := by
  have hnum : 0 < q.num := Rat.num_pos.mpr hq
  have hden : 0 < q.den := q.den_pos
  have hn1 : 1 ≤ q.num.natAbs := by omega
  obtain ⟨na, nb⟩ := log2Nat_spec q.num.natAbs hn1
  obtain ⟨da, db⟩ := log2Nat_spec q.den hden
  set a := log2Nat q.num.natAbs with ha
  set b := log2Nat q.den with hb
  have hqe : q = (q.num.natAbs : ℚ) / (q.den : ℚ) := by
    have h1 : ((q.num.natAbs : ℤ) : ℚ) = (q.num : ℚ) := by
      rw [Int.natAbs_of_nonneg hnum.le]
    have h2 : (q.num.natAbs : ℚ) = (q.num : ℚ) := by
      rw [← h1, Int.cast_natCast]
    rw [h2]
    exact (Rat.num_div_den q).symm
  have hdq : (0 : ℚ) < (q.den : ℚ) := by exact_mod_cast hden
  have two_ne : (2 : ℚ) ≠ 0 := by norm_num
  have na' : (2 : ℚ) ^ (a : ℤ) ≤ (q.num.natAbs : ℚ) := by
    rw [zpow_natCast]; exact_mod_cast na
  have nb' : (q.num.natAbs : ℚ) < (2 : ℚ) ^ ((a : ℤ) + 1) := by
    have : (q.num.natAbs : ℚ) < (2 : ℚ) ^ (a + 1) := by exact_mod_cast nb
    rw [← zpow_natCast] at this
    push_cast at this
    exact this
  have da' : (2 : ℚ) ^ (b : ℤ) ≤ (q.den : ℚ) := by
    rw [zpow_natCast]; exact_mod_cast da
  have db' : (q.den : ℚ) < (2 : ℚ) ^ ((b : ℤ) + 1) := by
    have : (q.den : ℚ) < (2 : ℚ) ^ (b + 1) := by exact_mod_cast db
    rw [← zpow_natCast] at this
    push_cast at this
    exact this
  have hpb : (0 : ℚ) < (2 : ℚ) ^ (b : ℤ) := zpow_pos (by norm_num) _
  have hpa : (0 : ℚ) < (2 : ℚ) ^ (a : ℤ) := zpow_pos (by norm_num) _
  -- upper bound: q < 2^(a-b+1)
  have hup : q < (2 : ℚ) ^ ((a : ℤ) - (b : ℤ) + 1) := by
    have e : (2 : ℚ) ^ ((a : ℤ) - (b : ℤ) + 1) = (2 : ℚ) ^ ((a : ℤ) + 1) / (2 : ℚ) ^ (b : ℤ) := by
      rw [← zpow_sub₀ two_ne]; congr 1; ring
    rw [e, hqe, div_lt_div_iff₀ hdq hpb]
    calc (q.num.natAbs : ℚ) * (2 : ℚ) ^ (b : ℤ) ≤ (q.num.natAbs : ℚ) * (q.den : ℚ) := by
          apply mul_le_mul_of_nonneg_left da' (by positivity)
      _ < (2 : ℚ) ^ ((a : ℤ) + 1) * (q.den : ℚ) := by
          apply mul_lt_mul_of_pos_right nb' hdq
  -- lower bound: 2^(a-b-1) ≤ q
  have hlo : (2 : ℚ) ^ ((a : ℤ) - (b : ℤ) - 1) ≤ q := by
    have e : (2 : ℚ) ^ ((a : ℤ) - (b : ℤ) - 1) = (2 : ℚ) ^ (a : ℤ) / (2 : ℚ) ^ ((b : ℤ) + 1) := by
      rw [← zpow_sub₀ two_ne]; congr 1; ring
    have hpb1 : (0 : ℚ) < (2 : ℚ) ^ ((b : ℤ) + 1) := zpow_pos (by norm_num) _
    rw [e, hqe, div_le_div_iff₀ hpb1 hdq]
    calc (2 : ℚ) ^ (a : ℤ) * (q.den : ℚ) ≤ (q.num.natAbs : ℚ) * (q.den : ℚ) := by
          apply mul_le_mul_of_nonneg_right na' hdq.le
      _ ≤ (q.num.natAbs : ℚ) * (2 : ℚ) ^ ((b : ℤ) + 1) := by
          apply mul_le_mul_of_nonneg_left db'.le (by positivity)
  unfold ilog2
  simp only
  rw [← ha, ← hb]
  by_cases hc : q < (2 : ℚ) ^ ((a : ℤ) - (b : ℤ))
  · rw [if_pos hc]
    refine ⟨hlo, ?_⟩
    have : (a : ℤ) - (b : ℤ) - 1 + 1 = (a : ℤ) - (b : ℤ) := by ring
    rw [this]
    exact hc
  · rw [if_neg hc]
    exact ⟨not_lt.mp hc, hup⟩


theorem roundHalfEven_ge_floor (x : ℚ) : ⌊x⌋ ≤ roundHalfEven x := by
  unfold roundHalfEven
  split_ifs <;> omega

theorem roundHalfEven_le_floor_succ (x : ℚ) : roundHalfEven x ≤ ⌊x⌋ + 1 := by
  unfold roundHalfEven
  split_ifs <;> omega

theorem roundHalfEven_intCast (n : ℤ) : roundHalfEven (n : ℚ) = n := by
  unfold roundHalfEven
  rw [Int.floor_intCast]
  norm_num

theorem roundHalfEven_mono {x y : ℚ} (h : x ≤ y) : roundHalfEven x ≤ roundHalfEven y := by
  have hf : ⌊x⌋ ≤ ⌊y⌋ := Int.floor_mono h
  rcases hf.lt_or_eq with hlt | heq
  · calc roundHalfEven x ≤ ⌊x⌋ + 1 := roundHalfEven_le_floor_succ x
      _ ≤ ⌊y⌋ := hlt
      _ ≤ roundHalfEven y := roundHalfEven_ge_floor y
  · unfold roundHalfEven
    rw [← heq]
    split_ifs <;> first | omega | (exfalso; linarith)

theorem roundHalfEven_le_of_le_int {x : ℚ} {n : ℤ} (h : x ≤ (n : ℚ)) : roundHalfEven x ≤ n := by
  have := roundHalfEven_mono h
  rwa [roundHalfEven_intCast] at this

theorem roundHalfEven_ge_of_int_le {x : ℚ} {n : ℤ} (h : (n : ℚ) ≤ x) : n ≤ roundHalfEven x := by
  have := roundHalfEven_mono h
  rwa [roundHalfEven_intCast] at this


theorem ilog2_mono {a b : ℚ} (ha : 0 < a) (h : a ≤ b) : ilog2 a ≤ ilog2 b := by
  have hb : 0 < b := lt_of_lt_of_le ha h
  have h1 := (ilog2_spec a ha).1
  have h2 := (ilog2_spec b hb).2
  have h3 : (2 : ℚ) ^ ilog2 a < (2 : ℚ) ^ (ilog2 b + 1) := lt_of_le_of_lt (le_trans h1 h) h2
  have h4 := (zpow_lt_zpow_iff_right₀ (by norm_num : (1 : ℚ) < 2)).mp h3
  omega

theorem quantum_mono {a b : ℚ} (ha : 0 < a) (h : a ≤ b) : quantum a ≤ quantum b := by
  unfold quantum
  exact max_le_max (by have := ilog2_mono ha h; omega) le_rfl

/-- Splitting a power of two over a finer quantum. -/
theorem zpow_split (t p : ℤ) (h : p ≤ t) :
    (2 : ℚ) ^ t = (((2 : ℤ) ^ (t - p).toNat : ℤ) : ℚ) * (2 : ℚ) ^ p := by
  have e : t = ((t - p).toNat : ℤ) + p := by
    rw [Int.toNat_of_nonneg (by omega)]; ring
  conv_lhs => rw [e]
  rw [zpow_add₀ (by norm_num : (2 : ℚ) ≠ 0), zpow_natCast]
  push_cast
  rfl

/-- A point `n * 2^t` of a grid at least as coarse as the quantum of `q` that
lies below `q` also lies below the rounded magnitude. -/
theorem grid_le_roundMag {q : ℚ} {n t : ℤ} (ht : quantum q ≤ t)
    (h : (n : ℚ) * (2 : ℚ) ^ t ≤ q) : (n : ℚ) * (2 : ℚ) ^ t ≤ roundMag q := by
  have hP : (0 : ℚ) < (2 : ℚ) ^ quantum q := zpow_pos (by norm_num) _
  rw [zpow_split t (quantum q) ht, ← mul_assoc] at h ⊢
  unfold roundMag
  apply mul_le_mul_of_nonneg_right _ hP.le
  have h1 : ((n * (2 : ℤ) ^ (t - quantum q).toNat : ℤ) : ℚ) ≤ q / (2 : ℚ) ^ quantum q := by
    rw [le_div_iff₀ hP]
    push_cast at h ⊢
    exact h
  have h2 := roundHalfEven_ge_of_int_le h1
  have h3 : ((n * (2 : ℤ) ^ (t - quantum q).toNat : ℤ) : ℚ) ≤
      (roundHalfEven (q / (2 : ℚ) ^ quantum q) : ℚ) := by exact_mod_cast h2
  push_cast at h3 ⊢
  exact h3

/-- A point `n * 2^t` of a grid at least as coarse as the quantum of `q` that
lies above `q` also lies above the rounded magnitude. -/
theorem roundMag_le_grid {q : ℚ} {n t : ℤ} (ht : quantum q ≤ t)
    (h : q ≤ (n : ℚ) * (2 : ℚ) ^ t) : roundMag q ≤ (n : ℚ) * (2 : ℚ) ^ t := by
  have hP : (0 : ℚ) < (2 : ℚ) ^ quantum q := zpow_pos (by norm_num) _
  rw [zpow_split t (quantum q) ht, ← mul_assoc] at h ⊢
  unfold roundMag
  apply mul_le_mul_of_nonneg_right _ hP.le
  have h1 : q / (2 : ℚ) ^ quantum q ≤ ((n * (2 : ℤ) ^ (t - quantum q).toNat : ℤ) : ℚ) := by
    rw [div_le_iff₀ hP]
    push_cast at h ⊢
    exact h
  have h2 := roundHalfEven_le_of_le_int h1
  have h3 : (roundHalfEven (q / (2 : ℚ) ^ quantum q) : ℚ) ≤
      ((n * (2 : ℤ) ^ (t - quantum q).toNat : ℤ) : ℚ) := by exact_mod_cast h2
  push_cast at h3 ⊢
  exact h3

theorem quantum_le_ilog2 (q : ℚ) (h : -1074 ≤ ilog2 q) : quantum q ≤ ilog2 q := by
  unfold quantum
  exact max_le (by omega) h

theorem roundMag_nonneg {q : ℚ} (hq : 0 ≤ q) : 0 ≤ roundMag q := by
  unfold roundMag
  have hP : (0 : ℚ) < (2 : ℚ) ^ quantum q := zpow_pos (by norm_num) _
  apply mul_nonneg _ hP.le
  have h1 : ((0 : ℤ) : ℚ) ≤ q / (2 : ℚ) ^ quantum q := by
    rw [Int.cast_zero]; exact div_nonneg hq hP.le
  exact_mod_cast roundHalfEven_ge_of_int_le h1

theorem roundMag_mono {a b : ℚ} (ha : 0 < a) (h : a ≤ b) : roundMag a ≤ roundMag b := by
  have hb : 0 < b := lt_of_lt_of_le ha h
  rcases (quantum_mono ha h).lt_or_eq with hlt | heq
  · -- different quanta: a power of two separates the two roundings
    have he : ilog2 a ≤ ilog2 b := ilog2_mono ha h
    have hqa : -1074 ≤ quantum a := le_max_right _ _
    have hqb : quantum b = ilog2 b - 52 := by
      unfold quantum at hlt hqa ⊢
      rcases max_cases (ilog2 b - 52) (-1074) with ⟨h1, _⟩ | ⟨h1, _⟩
      · exact h1
      · rw [h1] at hlt; omega
    have hne : ilog2 a < ilog2 b := by
      rcases he.lt_or_eq with h1 | h1
      · exact h1
      · exfalso
        unfold quantum at hlt
        rw [h1] at hlt
        exact lt_irrefl _ hlt
    have hsep : (2 : ℚ) ^ (ilog2 a + 1) ≤ (2 : ℚ) ^ ilog2 b :=
      zpow_le_zpow_right₀ (by norm_num) (by omega)
    have h1 : roundMag a ≤ ((1 : ℤ) : ℚ) * (2 : ℚ) ^ ilog2 b := by
      apply roundMag_le_grid (by omega)
      rw [Int.cast_one, one_mul]
      exact le_trans (ilog2_spec a ha).2.le hsep
    have h2 : ((1 : ℤ) : ℚ) * (2 : ℚ) ^ ilog2 b ≤ roundMag b := by
      apply grid_le_roundMag (by omega)
      rw [Int.cast_one, one_mul]
      exact (ilog2_spec b hb).1
    exact le_trans h1 h2
  · unfold roundMag
    rw [← heq]
    have hP : (0 : ℚ) < (2 : ℚ) ^ quantum a := zpow_pos (by norm_num) _
    apply mul_le_mul_of_nonneg_right _ hP.le
    have : a / (2 : ℚ) ^ quantum a ≤ b / (2 : ℚ) ^ quantum a :=
      div_le_div_of_nonneg_right h hP.le
    exact_mod_cast roundHalfEven_mono this


theorem round_of_pos {q : ℚ} (hq : 0 < q) :
    Double.round q =
      if (2 : ℚ) ^ (1024 : ℕ) ≤ roundMag q then Double.inf false else Double.fin (roundMag q) := by
  unfold Double.round
  rw [if_neg hq.ne', abs_of_pos hq, if_pos hq]
  have : decide (q < 0) = false := decide_eq_false (not_lt.mpr hq.le)
  rw [this]

theorem round_of_neg {q : ℚ} (hq : q < 0) :
    Double.round q =
      if (2 : ℚ) ^ (1024 : ℕ) ≤ roundMag (-q) then Double.inf true
      else Double.fin (-roundMag (-q)) := by
  unfold Double.round
  rw [if_neg hq.ne, abs_of_neg hq, if_neg (not_lt.mpr hq.le)]
  have : decide (q < 0) = true := decide_eq_true hq
  rw [this]

theorem round_zero : Double.round 0 = Double.fin 0 := by
  unfold Double.round
  rw [if_pos rfl]

/-- Rounding to binary64 is monotone. -/
theorem round_mono {a b : ℚ} (h : a ≤ b) : Double.le (Double.round a) (Double.round b) = true := by
  rcases lt_trichotomy a 0 with ha | ha | ha
  · rw [round_of_neg ha]
    have hma : 0 ≤ roundMag (-a) := roundMag_nonneg (by linarith)
    rcases lt_trichotomy b 0 with hb | hb | hb
    · rw [round_of_neg hb]
      have hm : roundMag (-b) ≤ roundMag (-a) := roundMag_mono (by linarith) (by linarith)
      split_ifs with h1 h2 h2
      · rfl
      · rfl
      · exact absurd (le_trans h2 hm) h1
      · simp only [Double.le, decide_eq_true_eq]
        linarith
    · subst hb
      rw [round_zero]
      split_ifs
      · rfl
      · simp only [Double.le, decide_eq_true_eq]
        linarith
    · rw [round_of_pos hb]
      have hmb : 0 ≤ roundMag b := roundMag_nonneg hb.le
      split_ifs
      · rfl
      · rfl
      · rfl
      · simp only [Double.le, decide_eq_true_eq]
        linarith
  · subst ha
    rw [round_zero]
    rcases h.lt_or_eq with hb | hb
    · rw [round_of_pos hb]
      have hmb : 0 ≤ roundMag b := roundMag_nonneg hb.le
      split_ifs
      · rfl
      · simp only [Double.le, decide_eq_true_eq]
        exact hmb
    · rw [← hb, round_zero]
      simp [Double.le]
  · have hb : 0 < b := lt_of_lt_of_le ha h
    rw [round_of_pos ha, round_of_pos hb]
    have hm : roundMag a ≤ roundMag b := roundMag_mono ha h
    split_ifs with h1 h2 h2
    · rfl
    · exact absurd (le_trans h1 hm) h2
    · rfl
    · simp only [Double.le, decide_eq_true_eq]
      exact hm

/-- Values bounded below by a finite `k`: the positive infinity and the finite
values that are at least `k`. -/
theorem le_fin_iff (k : ℚ) (x : Double) :
    Double.le (Double.fin k) x = true ↔ x = Double.inf false ∨ ∃ q, x = Double.fin q ∧ k ≤ q := by
  cases x with
  | nan => simp [Double.le]
  | inf s => cases s <;> simp [Double.le]
  | fin q => simp [Double.le]

/-- A representable lower bound of an exact result survives rounding. -/
theorem round_ge {k q : ℚ} (hk : Double.round k = Double.fin k) (h : k ≤ q) :
    Double.le (Double.fin k) (Double.round q) = true := by
  rw [← hk]
  exact round_mono h

theorem mul_ge {x y : Double} {a b c : ℚ} (ha : 0 < a) (hb : 0 < b)
    (hx : Double.le (Double.fin a) x = true) (hy : Double.le (Double.fin b) y = true)
    (hc : Double.round c = Double.fin c) (hcab : c ≤ a * b) :
    Double.le (Double.fin c) (Double.mul x y) = true := by
  rcases (le_fin_iff a x).mp hx with rfl | ⟨p, rfl, hp⟩ <;>
    rcases (le_fin_iff b y).mp hy with rfl | ⟨q, rfl, hq⟩
  · rfl
  · have hq0 : 0 < q := lt_of_lt_of_le hb hq
    simp [Double.mul, hq0.ne', not_lt.mpr hq0.le, Double.le]
  · have hp0 : 0 < p := lt_of_lt_of_le ha hp
    simp [Double.mul, hp0.ne', not_lt.mpr hp0.le, Double.le]
  · have hp0 : 0 < p := lt_of_lt_of_le ha hp
    have : c ≤ p * q := le_trans hcab (mul_le_mul hp hq hb.le hp0.le)
    exact round_ge hc this

theorem sub_fin_ge {x : Double} {a b c : ℚ}
    (hx : Double.le (Double.fin a) x = true)
    (hc : Double.round c = Double.fin c) (hcab : c ≤ a - b) :
    Double.le (Double.fin c) (Double.sub x (Double.fin b)) = true := by
  rcases (le_fin_iff a x).mp hx with rfl | ⟨p, rfl, hp⟩
  · rfl
  · simp only [Double.sub, Double.neg, Double.add]
    exact round_ge hc (by linarith)

theorem toInt_ge {x : Double} {m n : ℤ} (hm : 0 ≤ m)
    (hx : Double.le (Double.fin (m : ℚ)) x = true) (h : x.toInt = some n) : m ≤ n := by
  rcases (le_fin_iff _ x).mp hx with rfl | ⟨q, rfl, hq⟩
  · simp [Double.toInt] at h
  · simp only [Double.toInt] at h
    split_ifs at h
    simp only [Option.some.injEq] at h
    subst h
    have hq0 : (0 : ℚ) ≤ q := le_trans (by exact_mod_cast hm) hq
    unfold truncQ
    rw [if_pos hq0]
    exact Int.le_floor.mpr hq


/-! ## Binary64 values of the multipliers -/

theorem lit_13_10 : lit (13 / 10) = Double.fin (5854679515581645 / 4503599627370496) := by decide!

theorem lit_7_10 : lit (7 / 10) = Double.fin (3152519739159347 / 4503599627370496) := by decide!

theorem lit_1_2 : lit (1 / 2) = Double.fin (1 / 2) := by decide!

theorem lit_4_5 : lit (4 / 5) = Double.fin (3602879701896397 / 4503599627370496) := by decide!

theorem lit_11_10 : lit (11 / 10) = Double.fin (2476979795053773 / 2251799813685248) := by decide!

theorem ofInt_ten : ofInt 10 = Double.fin 10 := by decide!

/-! ## Lower bounds along the duration chain -/

theorem scale_ge {b r L M : ℤ} {kd : Double} {k : ℚ} (hk : kd = Double.fin k) (hk0 : 0 < k)
    (hL0 : 0 < L) (hLb : L ≤ b) (hM0 : 0 ≤ M)
    (hLr : Double.round (L : ℚ) = Double.fin (L : ℚ))
    (hMr : Double.round (M : ℚ) = Double.fin (M : ℚ))
    (hMk : (M : ℚ) ≤ (L : ℚ) * k) (h : scale b kd = some r) : M ≤ r := by
  unfold scale at h
  refine toInt_ge hM0 ?_ h
  subst hk
  have hL0q : (0 : ℚ) < (L : ℚ) := by exact_mod_cast hL0
  have hx : Double.le (Double.fin (L : ℚ)) (ofInt b) = true :=
    round_ge hLr (by exact_mod_cast hLb)
  have hy : Double.le (Double.fin k) (Double.fin k) = true := by simp [Double.le]
  exact mul_ge hL0q hk0 hx hy hMr hMk

/-- One optional truncating multiplication keeps a lower bound `M` when the
incoming value is at least `L ≥ M` and `L * k ≥ M`. -/
theorem step_ge (g : Prop) [Decidable g] {b r L M : ℤ} {kd : Double} {k : ℚ}
    (hk : kd = Double.fin k) (hk0 : 0 < k)
    (hL0 : 0 < L) (hLb : L ≤ b) (hM0 : 0 ≤ M) (hML : M ≤ L)
    (hLr : Double.round (L : ℚ) = Double.fin (L : ℚ))
    (hMr : Double.round (M : ℚ) = Double.fin (M : ℚ))
    (hMk : (M : ℚ) ≤ (L : ℚ) * k)
    (h : (if g then scale b kd else some b) = some r) : M ≤ r := by
  split_ifs at h
  · exact scale_ge hk hk0 hL0 hLb hM0 hLr hMr hMk h
  · have : b = r := by simpa using h
    omega

theorem round_int_1 : Double.round ((1 : ℤ) : ℚ) = Double.fin ((1 : ℤ) : ℚ) := by decide!

theorem round_int_2 : Double.round ((2 : ℤ) : ℚ) = Double.fin ((2 : ℤ) : ℚ) := by decide!

theorem round_int_3 : Double.round ((3 : ℤ) : ℚ) = Double.fin ((3 : ℤ) : ℚ) := by decide!

theorem round_int_5 : Double.round ((5 : ℤ) : ℚ) = Double.fin ((5 : ℤ) : ℚ) := by decide!

theorem round_half : Double.round (1 / 2) = Double.fin (1 / 2) := by decide!

/-- Every rule of the cascade that answers yes requires ET0 above 2.5. -/
theorem should_irrigate_gt (e : DecisionEngine) (c : SystemConditions)
    (h : should_irrigate e c = true) : Double.lt (Double.fin (5 / 2)) c.et0 = true := by
  unfold should_irrigate at h
  rw [lit_five_halves, lit_three, lit_five, lit_seven_halves] at h
  have key : ∀ k : ℚ, 5 / 2 ≤ k → Double.gt c.et0 (Double.fin k) = true →
      Double.lt (Double.fin (5 / 2)) c.et0 = true := by
    intro k hk hg
    unfold Double.gt at hg
    cases hx : c.et0 with
    | nan => rw [hx] at hg; simp [Double.lt] at hg
    | inf s => rw [hx] at hg; simpa [Double.lt] using hg
    | fin q =>
      rw [hx] at hg
      simp only [Double.lt, decide_eq_true_eq] at hg ⊢
      linarith
  split_ifs at h
  · exact key _ le_rfl h
  · exact key _ (by norm_num) h
  · simp only [Bool.and_eq_true] at h
    exact key _ (by norm_num) h.1
  · exact key _ (by norm_num) h

/-- The first conversion of `calculate_duration` yields at least 5 once ET0 exceeds 2.5. -/
theorem base_ge_five {x : Double} {b : ℤ} (hx : Double.lt (Double.fin (5 / 2)) x = true)
    (h : (Double.mul (Double.sub x (lit 2)) (ofInt 10)).toInt = some b) : 5 ≤ b := by
  rw [lit_two, ofInt_ten] at h
  refine toInt_ge (by norm_num) ?_ h
  have hx2 : Double.le (Double.fin (5 / 2)) x = true := by
    cases x with
    | nan => simp [Double.lt] at hx
    | inf s => simpa [Double.lt, Double.le] using hx
    | fin q =>
      simp only [Double.lt, Double.le, decide_eq_true_eq] at hx ⊢
      exact hx.le
  have h1 : Double.le (Double.fin (1 / 2)) (Double.sub x (Double.fin 2)) = true :=
    sub_fin_ge hx2 round_half (by norm_num)
  have h2 : Double.le (Double.fin 10) (Double.fin 10) = true := by simp [Double.le]
  exact mul_ge (by norm_num) (by norm_num) h1 h2 round_int_5 (by norm_num)

/-- Whenever the rule cascade answers yes and the duration is defined, the
duration before clamping is at least one second. -/
theorem raw_duration_pos (e : DecisionEngine) (c : SystemConditions) (r : ℤ)
    (hs : should_irrigate e c = true) (h : raw_duration c = some r) : 1 ≤ r := by
  have hgt := should_irrigate_gt e c hs
  unfold raw_duration at h
  simp only [Option.bind_eq_some] at h
  obtain ⟨b0, h0, b1, h1, b2, h2, b3, h3, h4⟩ := h
  have hb0 : 5 ≤ b0 := base_ge_five hgt h0
  have hb1 : 5 ≤ b1 :=
    step_ge _ lit_13_10 (by norm_num) (by norm_num) hb0 (by norm_num) le_rfl
      round_int_5 round_int_5 (by norm_num) h1
  have hb2 : 2 ≤ b2 := by
    by_cases hc : c.mode = IrrigationMode.MODE_CONSERVATION
    · rw [if_pos hc] at h2
      have : 3 ≤ b2 :=
        scale_ge lit_7_10 (by norm_num) (by norm_num) hb1 (by norm_num)
          round_int_5 round_int_3 (by norm_num) h2
      omega
    · rw [if_neg hc] at h2
      exact step_ge _ lit_1_2 (by norm_num) (by norm_num) hb1 (by norm_num) (by norm_num)
        round_int_5 round_int_2 (by norm_num) h2
  have hb3 : 1 ≤ b3 :=
    step_ge _ lit_4_5 (by norm_num) (by norm_num) hb2 (by norm_num) (by norm_num)
      round_int_2 round_int_1 (by norm_num) h3
  exact step_ge _ lit_11_10 (by norm_num) (by norm_num) hb3 (by norm_num) le_rfl
    round_int_1 round_int_1 (by norm_num) h4


/-! ## Exactness on integers and definedness of the duration -/

theorem roundMag_intCast {n : ℤ} (h0 : 0 < n) (h : n < 2 ^ 53) : roundMag (n : ℚ) = (n : ℚ) := by
  have hq : (0 : ℚ) < (n : ℚ) := by exact_mod_cast h0
  have hlt : (n : ℚ) < (2 : ℚ) ^ (53 : ℤ) := by
    have : (n : ℚ) < ((2 ^ 53 : ℤ) : ℚ) := by exact_mod_cast h
    rw [zpow_ofNat]
    exact_mod_cast this
  have he : ilog2 (n : ℚ) < 53 := by
    have h1 := lt_of_le_of_lt (ilog2_spec (n : ℚ) hq).1 hlt
    exact (zpow_lt_zpow_iff_right₀ (by norm_num : (1 : ℚ) < 2)).mp h1
  have hquant : quantum (n : ℚ) ≤ 0 := by
    unfold quantum
    exact max_le (by omega) (by norm_num)
  have e1 : (n : ℚ) * (2 : ℚ) ^ (0 : ℤ) = (n : ℚ) := by simp
  have hle := roundMag_le_grid (n := n) hquant (by rw [e1])
  have hge := grid_le_roundMag (n := n) hquant (by rw [e1])
  rw [e1] at hle hge
  exact le_antisymm hle hge

/-- Integers of magnitude below `2^53` are binary64 values: converting them is exact. -/
theorem ofInt_exact (n : ℤ) (h : |n| < 2 ^ 53) : ofInt n = Double.fin (n : ℚ) := by
  have hb := abs_lt.mp h
  unfold ofInt
  rcases lt_trichotomy n 0 with hn | hn | hn
  · have hq : (n : ℚ) < 0 := by exact_mod_cast hn
    have hm : roundMag (-(n : ℚ)) = -(n : ℚ) := by
      have := roundMag_intCast (n := -n) (by omega) (by omega)
      simpa using this
    rw [round_of_neg hq, hm, neg_neg]
    have : ¬ (2 : ℚ) ^ (1024 : ℕ) ≤ -(n : ℚ) := by
      have h1 : -(n : ℚ) < ((2 ^ 53 : ℤ) : ℚ) := by
        have : -n < 2 ^ 53 := by omega
        exact_mod_cast this
      have h2 : (((2 : ℤ) ^ 53 : ℤ) : ℚ) ≤ (2 : ℚ) ^ (1024 : ℕ) := by norm_num
      linarith
    rw [if_neg this]
  · subst hn
    simpa using round_zero
  · have hq : (0 : ℚ) < (n : ℚ) := by exact_mod_cast hn
    rw [round_of_pos hq, roundMag_intCast hn hb.2]
    have : ¬ (2 : ℚ) ^ (1024 : ℕ) ≤ (n : ℚ) := by
      have h1 : (n : ℚ) < ((2 ^ 53 : ℤ) : ℚ) := by exact_mod_cast hb.2
      have h2 : (((2 : ℤ) ^ 53 : ℤ) : ℚ) ≤ (2 : ℚ) ^ (1024 : ℕ) := by norm_num
      linarith
    rw [if_neg this]

/-- An exact result between two opposite integers below `2^53` rounds to a
finite value between them. -/
theorem round_abs_le {q : ℚ} {N : ℤ} (hN : N < 2 ^ 53) (h : |q| ≤ (N : ℚ)) :
    ∃ r, Double.round q = Double.fin r ∧ |r| ≤ (N : ℚ) := by
  have hN0 : 0 ≤ N := by
    have : (0 : ℚ) ≤ (N : ℚ) := le_trans (abs_nonneg q) h
    exact_mod_cast this
  obtain ⟨hlo, hhi⟩ := abs_le.mp h
  have e1 : Double.round ((N : ℤ) : ℚ) = Double.fin (N : ℚ) :=
    ofInt_exact N (by rw [abs_of_nonneg hN0]; exact hN)
  have e2 : Double.round ((-N : ℤ) : ℚ) = Double.fin ((-N : ℤ) : ℚ) :=
    ofInt_exact (-N) (by rw [abs_neg, abs_of_nonneg hN0]; exact hN)
  have h1 := round_mono hhi
  have h2 := round_mono (a := ((-N : ℤ) : ℚ)) (b := q) (by push_cast; exact hlo)
  rw [e1] at h1
  rw [e2] at h2
  cases hr : Double.round q with
  | nan => rw [hr] at h1; simp [Double.le] at h1
  | inf s =>
    rw [hr] at h1 h2
    cases s <;> simp [Double.le] at h1 h2
  | fin r =>
    rw [hr] at h1 h2
    simp only [Double.le, decide_eq_true_eq] at h1 h2
    push_cast at h2
    exact ⟨r, rfl, abs_le.mpr ⟨h2, h1⟩⟩

theorem truncQ_abs_le {q : ℚ} {N : ℤ} (h : |q| ≤ (N : ℚ)) : |truncQ q| ≤ N := by
  obtain ⟨hlo, hhi⟩ := abs_le.mp h
  unfold truncQ
  split_ifs with h0
  · have h1 : 0 ≤ ⌊q⌋ := Int.floor_nonneg.mpr h0
    have h2 : ⌊q⌋ ≤ N := by
      have : ((⌊q⌋ : ℤ) : ℚ) ≤ (N : ℚ) := le_trans (Int.floor_le q) hhi
      exact_mod_cast this
    rw [abs_of_nonneg h1]; exact h2
  · have hq : q < 0 := not_le.mp h0
    have h1 : ⌈q⌉ ≤ 0 := Int.ceil_le.mpr (by exact_mod_cast hq.le)
    have h2 : -N ≤ ⌈q⌉ := by
      have : ((-N : ℤ) : ℚ) ≤ ((⌈q⌉ : ℤ) : ℚ) := by
        push_cast
        exact le_trans hlo (Int.le_ceil q)
      exact_mod_cast this
    rw [abs_of_nonpos h1]; omega

theorem toInt_defined {q : ℚ} {N : ℤ} (hN : N ≤ 2147483647) (h : |q| ≤ (N : ℚ)) :
    ∃ n, (Double.fin q).toInt = some n ∧ |n| ≤ N := by
  have ht := truncQ_abs_le h
  obtain ⟨h1, h2⟩ := abs_le.mp ht
  refine ⟨truncQ q, ?_, ht⟩
  simp only [Double.toInt]
  rw [if_pos ⟨by omega, by omega⟩]

theorem scale_defined {b A N : ℤ} {kd : Double} {k : ℚ} (hk : kd = Double.fin k) (hk0 : 0 ≤ k)
    (hb : |b| ≤ A) (hA : A < 2 ^ 53) (hN : N ≤ 2147483647) (hprod : (A : ℚ) * k ≤ (N : ℚ)) :
    ∃ r, scale b kd = some r ∧ |r| ≤ N := by
  subst hk
  unfold scale
  have hb53 : |b| < 2 ^ 53 := lt_of_le_of_lt hb hA
  rw [ofInt_exact b hb53]
  simp only [Double.mul]
  have hbq : |(b : ℚ)| ≤ (A : ℚ) := by
    have : ((|b| : ℤ) : ℚ) ≤ (A : ℚ) := by exact_mod_cast hb
    simpa using this
  have hbk : |(b : ℚ) * k| ≤ (N : ℚ) := by
    rw [abs_mul, abs_of_nonneg hk0]
    exact le_trans (mul_le_mul_of_nonneg_right hbq hk0) hprod
  obtain ⟨r, hr, hrN⟩ := round_abs_le (by omega) hbk
  rw [hr]
  exact toInt_defined hN hrN

theorem step_defined (g : Prop) [Decidable g] {b A N : ℤ} {kd : Double} {k : ℚ}
    (hk : kd = Double.fin k) (hk0 : 0 ≤ k)
    (hb : |b| ≤ A) (hA : A < 2 ^ 53) (hAN : A ≤ N) (hN : N ≤ 2147483647)
    (hprod : (A : ℚ) * k ≤ (N : ℚ)) :
    ∃ r, (if g then scale b kd else some b) = some r ∧ |r| ≤ N := by
  split_ifs
  · exact scale_defined hk hk0 hb hA hN hprod
  · exact ⟨b, rfl, le_trans hb hAN⟩

/-- For a finite ET0 of magnitude at most one million every conversion to
`int` in `calculate_duration` is defined. -/
theorem raw_duration_defined (c : SystemConditions) (q : ℚ) (hq : c.et0 = Double.fin q)
    (hb : |q| ≤ 1000000) : ∃ r, raw_duration c = some r := by
  unfold raw_duration
  rw [hq, lit_two, ofInt_ten]
  simp only [Double.sub, Double.neg, Double.add, Double.mul]
  have h1 : |q + -2| ≤ ((1000002 : ℤ) : ℚ) := by
    have := abs_add q (-2)
    have e : |(-2 : ℚ)| = 2 := by norm_num
    rw [e] at this
    push_cast
    linarith
  obtain ⟨r1, hr1, hr1b⟩ := round_abs_le (by norm_num) h1
  rw [hr1]
  simp only [Double.mul]
  have h2 : |r1 * 10| ≤ ((10000020 : ℤ) : ℚ) := by
    rw [abs_mul]
    have e : |(10 : ℚ)| = 10 := by norm_num
    rw [e]
    push_cast at hr1b ⊢
    linarith
  obtain ⟨r2, hr2, hr2b⟩ := round_abs_le (by norm_num) h2
  rw [hr2]
  obtain ⟨b0, hb0, hb0b⟩ := toInt_defined (by norm_num) hr2b
  rw [hb0]
  simp only [Option.some_bind]
  obtain ⟨b1, hb1, hb1b⟩ := step_defined (Double.gt c.temperature (ofInt 35) = true)
    (b := b0) (A := 10000020) (N := 13100000) lit_13_10 (by norm_num) hb0b (by norm_num)
    (by norm_num) (by norm_num) (by norm_num)
  rw [hb1]
  simp only [Option.some_bind]
  have hmode : ∃ b2, (if c.mode = IrrigationMode.MODE_CONSERVATION then scale b1 (lit (7 / 10))
      else if c.mode = IrrigationMode.MODE_EXTREME then scale b1 (lit (1 / 2))
      else some b1) = some b2 ∧ |b2| ≤ 13100000 := by
    by_cases hc : c.mode = IrrigationMode.MODE_CONSERVATION
    · rw [if_pos hc]
      exact scale_defined lit_7_10 (by norm_num) hb1b (by norm_num) (by norm_num) (by norm_num)
    · rw [if_neg hc]
      exact step_defined _ lit_1_2 (by norm_num) hb1b (by norm_num) (by norm_num)
        (by norm_num) (by norm_num)
  obtain ⟨b2, hb2, hb2b⟩ := hmode
  rw [hb2]
  simp only [Option.some_bind]
  obtain ⟨b3, hb3, hb3b⟩ := step_defined ((!c.power_available) = true)
    (b := b2) (A := 13100000) (N := 13100000) lit_4_5 (by norm_num) hb2b (by norm_num)
    (by norm_num) (by norm_num) (by norm_num)
  rw [hb3]
  simp only [Option.some_bind]
  obtain ⟨b4, hb4, _⟩ := step_defined (is_optimal_time c.hour = true)
    (b := b3) (A := 13100000) (N := 14500000) lit_11_10 (by norm_num) hb3b (by norm_num)
    (by norm_num) (by norm_num) (by norm_num)
  exact ⟨b4, hb4⟩

/-- For a finite ET0 of magnitude at most one million `make_decision` writes
both outputs: no conversion to `int` is undefined. -/
theorem make_decision_defined (e : DecisionEngine) (c : SystemConditions) (q : ℚ)
    (hq : c.et0 = Double.fin q) (hb : |q| ≤ 1000000) :
    ∃ w d, make_decision e c = some (w, d) := by
  unfold make_decision
  split_ifs
  · obtain ⟨r, hr⟩ := raw_duration_defined c q hq hb
    exact ⟨true, clamp e r, by simp [calculate_duration, hr]⟩
  · exact ⟨false, 0, rfl⟩


theorem should_irrigate_low_water (e : DecisionEngine) (c : SystemConditions)
    (h : c.water_level < 500) : should_irrigate e c = false := by
  unfold should_irrigate
  split_ifs <;> simp_all

theorem lt_two_not_gt (x : Double) (h : Double.lt x (Double.fin 2) = true) :
    Double.gt x (Double.fin (7 / 2)) = false := by
  cases x with
  | nan => rfl
  | inf s => cases s <;> simp_all [Double.lt, Double.gt]
  | fin q =>
    simp only [Double.lt, Double.gt, decide_eq_true_eq, decide_eq_false_iff_not, not_lt] at h ⊢
    linarith

/-- The clamp of a positive raw duration is positive as soon as the upper bound is. -/
theorem clamp_pos (e : DecisionEngine) (b : ℤ) (hmax : 1 ≤ e.max_duration) (hb : 1 ≤ b) :
    1 ≤ clamp e b := by
  unfold clamp
  split_ifs <;> omega

theorem not_lt_iff_le {x y : Double} (hx : x ≠ Double.nan) (hy : y ≠ Double.nan) :
    Double.lt x y = false ↔ Double.le y x = true := by
  cases x with
  | nan => exact absurd rfl hx
  | inf s =>
    cases y with
    | nan => exact absurd rfl hy
    | inf t => cases s <;> cases t <;> simp [Double.lt, Double.le]
    | fin b => cases s <;> simp [Double.lt, Double.le]
  | fin a =>
    cases y with
    | nan => exact absurd rfl hy
    | inf t => cases t <;> simp [Double.lt, Double.le]
    | fin b => simp [Double.lt, Double.le]

/-- Away from NaN the second half of claim C5 holds: `validate_inputs` accepts
exactly the inputs inside the three ranges. -/
theorem validate_inputs_iff_of_ne_nan (temp humidity radiation : Double)
    (ht : temp ≠ Double.nan) (hh : humidity ≠ Double.nan) (hr : radiation ≠ Double.nan) :
    validate_inputs temp humidity radiation = true ↔
      (Double.le (ofInt (-10)) temp = true ∧ Double.le temp (ofInt 50) = true) ∧
        (Double.le (ofInt 0) humidity = true ∧ Double.le humidity (ofInt 100) = true) ∧
        Double.le (ofInt 0) radiation = true := by
  have c1 : ofInt (-10) ≠ Double.nan := by rw [ofInt_neg_ten]; simp
  have c2 : ofInt 50 ≠ Double.nan := by rw [ofInt_fifty]; simp
  have c3 : ofInt 0 ≠ Double.nan := by rw [ofInt_zero]; simp
  have c4 : ofInt 100 ≠ Double.nan := by rw [ofInt_hundred]; simp
  rw [← not_lt_iff_le ht c1, ← not_lt_iff_le c2 ht, ← not_lt_iff_le hh c3,
    ← not_lt_iff_le c4 hh, ← not_lt_iff_le hr c3]
  unfold validate_inputs Double.gt
  cases Double.lt temp (ofInt (-10)) <;> cases Double.lt (ofInt 50) temp <;>
    cases Double.lt humidity (ofInt 0) <;> cases Double.lt (ofInt 100) humidity <;>
    cases Double.lt radiation (ofInt 0) <;> simp


/-! ## Order facts for the comparisons of the rule cascade -/

theorem lt_fin_of_le {a b : Double} {k : ℚ} (hab : Double.le a b = true)
    (h : Double.lt (Double.fin k) a = true) : Double.lt (Double.fin k) b = true := by
  cases a with
  | nan => simp [Double.lt] at h
  | inf s =>
    cases b with
    | nan => simp [Double.le] at hab
    | inf t => cases s <;> cases t <;> simp_all [Double.lt, Double.le]
    | fin q => cases s <;> simp_all [Double.lt, Double.le]
  | fin p =>
    cases b with
    | nan => simp [Double.le] at hab
    | inf t => cases t <;> simp_all [Double.lt, Double.le]
    | fin q =>
      simp only [Double.lt, Double.le, decide_eq_true_eq] at *
      linarith

theorem not_lt_fin_of_le {a b : Double} {k : ℚ} (hab : Double.le a b = true)
    (h : Double.lt a (Double.fin k) = false) : Double.lt b (Double.fin k) = false := by
  cases a with
  | nan => simp [Double.le] at hab
  | inf s =>
    cases b with
    | nan => simp [Double.le] at hab
    | inf t => cases s <;> cases t <;> simp_all [Double.lt, Double.le]
    | fin q => cases s <;> simp_all [Double.lt, Double.le]
  | fin p =>
    cases b with
    | nan => simp [Double.le] at hab
    | inf t => cases t <;> simp_all [Double.lt, Double.le]
    | fin q =>
      simp only [Double.lt, Double.le, decide_eq_true_eq, decide_eq_false_iff_not, not_lt] at *
      linarith

theorem not_gt_of_le {a b : Double} (h : Double.le a b = true) : Double.gt a b = false := by
  unfold Double.gt
  cases a with
  | nan => simp [Double.le] at h
  | inf s =>
    cases b with
    | nan => simp [Double.le] at h
    | inf t => cases s <;> cases t <;> simp_all [Double.lt, Double.le]
    | fin q => cases s <;> simp_all [Double.lt, Double.le]
  | fin p =>
    cases b with
    | nan => simp [Double.le] at h
    | inf t => cases t <;> simp_all [Double.lt, Double.le]
    | fin q =>
      simp only [Double.lt, Double.le, decide_eq_true_eq, decide_eq_false_iff_not, not_lt] at *
      exact h

/-- The cascade read as a conjunction: the three veto rules do not fire and the
threshold selected by hour, temperature and mode is exceeded. -/
theorem should_irrigate_eq_true_iff (e : DecisionEngine) (c : SystemConditions) :
    should_irrigate e c = true ↔
      Double.lt c.et0 (Double.fin 2) = false ∧ ¬ c.water_level < 500 ∧
        (c.power_available = false → Double.lt c.et0 (Double.fin 4) = false) ∧
        (if is_optimal_time c.hour = true then Double.lt (Double.fin (5 / 2)) c.et0 = true
          else if Double.gt c.temperature (ofInt 35) = true then
            Double.lt (Double.fin 3) c.et0 = true
          else if c.mode = IrrigationMode.MODE_EXTREME then False
          else Double.lt (Double.fin (7 / 2)) c.et0 = true) := by
  unfold should_irrigate
  rw [lit_two, lit_four, lit_five_halves, lit_three, lit_five, lit_seven_halves]
  unfold Double.gt
  cases h1 : Double.lt c.et0 (Double.fin 2) <;>
    cases h3 : Double.lt c.et0 (Double.fin 4) <;>
    cases hp : c.power_available <;>
    cases ho : is_optimal_time c.hour <;>
    cases ht : Double.lt (ofInt 35) c.temperature <;>
    by_cases hm : c.mode = IrrigationMode.MODE_EXTREME <;>
    by_cases hw : c.water_level < 500 <;>
    simp [hm, hw]


/-! ## Monotonicity of the arithmetic of the duration chain -/

theorem round_ne_nan (q : ℚ) : Double.round q ≠ Double.nan := by
  unfold Double.round
  split_ifs <;> simp

theorem le_inf_pos_of_ne_nan {x : Double} (h : x ≠ Double.nan) :
    Double.le x (Double.inf false) = true := by
  cases x with
  | nan => exact absurd rfl h
  | inf s => cases s <;> rfl
  | fin q => rfl

theorem inf_neg_le_of_ne_nan {x : Double} (h : x ≠ Double.nan) :
    Double.le (Double.inf true) x = true := by
  cases x with
  | nan => exact absurd rfl h
  | inf s => cases s <;> rfl
  | fin q => rfl

theorem truncQ_mono {a b : ℚ} (h : a ≤ b) : truncQ a ≤ truncQ b := by
  unfold truncQ
  split_ifs with ha hb hb
  · exact Int.floor_mono h
  · exact absurd (le_trans ha h) hb
  · have h1 : ⌈a⌉ ≤ 0 := Int.ceil_le.mpr (by exact_mod_cast (not_le.mp ha).le)
    have h2 : 0 ≤ ⌊b⌋ := Int.floor_nonneg.mpr hb
    omega
  · exact Int.ceil_mono h

theorem toInt_mono {x y : Double} {m n : ℤ} (h : Double.le x y = true)
    (hx : x.toInt = some m) (hy : y.toInt = some n) : m ≤ n := by
  cases x with
  | nan => simp [Double.toInt] at hx
  | inf s => simp [Double.toInt] at hx
  | fin p =>
    cases y with
    | nan => simp [Double.toInt] at hy
    | inf t => simp [Double.toInt] at hy
    | fin q =>
      simp only [Double.toInt] at hx hy
      split_ifs at hx hy
      simp only [Option.some.injEq] at hx hy
      subst hx hy
      simp only [Double.le, decide_eq_true_eq] at h
      exact truncQ_mono h

theorem toInt_range {x : Double} {n : ℤ} (h : x.toInt = some n) :
    -2147483648 ≤ n ∧ n ≤ 2147483647 := by
  cases x with
  | nan => simp [Double.toInt] at h
  | inf s => simp [Double.toInt] at h
  | fin p =>
    simp only [Double.toInt] at h
    split_ifs at h with hr
    simp only [Option.some.injEq] at h
    subst h
    exact hr

/-- Multiplication by a positive finite constant is monotone. -/
theorem mul_fin_mono {x y : Double} {k : ℚ} (hk : 0 < k) (h : Double.le x y = true) :
    Double.le (Double.mul x (Double.fin k)) (Double.mul y (Double.fin k)) = true := by
  have hk0 : ¬ k < 0 := not_lt.mpr hk.le
  cases x with
  | nan => simp [Double.le] at h
  | inf s =>
    cases y with
    | nan => simp [Double.le] at h
    | inf t => cases s <;> cases t <;> simp_all [Double.mul, Double.le, hk.ne']
    | fin q =>
      cases s
      · simp [Double.le] at h
      · simp only [Double.mul, hk.ne', if_false, hk0, decide_False, Bool.xor_false]
        exact inf_neg_le_of_ne_nan (round_ne_nan _)
  | fin p =>
    cases y with
    | nan => simp [Double.le] at h
    | inf t =>
      cases t
      · simp only [Double.mul, hk.ne', if_false, hk0, decide_False, Bool.xor_false]
        exact le_inf_pos_of_ne_nan (round_ne_nan _)
      · simp [Double.le] at h
    | fin q =>
      simp only [Double.le, decide_eq_true_eq] at h
      simp only [Double.mul]
      exact round_mono (mul_le_mul_of_nonneg_right h hk.le)

/-- Multiplying a non-negative value by a larger positive constant gives a larger result. -/
theorem mul_const_mono {x : Double} {k k' : ℚ} (hx : Double.le (Double.fin 0) x = true)
    (hk : 0 < k) (hkk : k ≤ k') :
    Double.le (Double.mul x (Double.fin k)) (Double.mul x (Double.fin k')) = true := by
  have hk' : 0 < k' := lt_of_lt_of_le hk hkk
  rcases (le_fin_iff 0 x).mp hx with rfl | ⟨p, rfl, hp⟩
  · simp [Double.mul, Double.le, hk.ne', hk'.ne', not_lt.mpr hk.le, not_lt.mpr hk'.le]
  · simp only [Double.mul]
    exact round_mono (mul_le_mul_of_nonneg_left hkk hp)

/-- Subtracting a finite constant is monotone. -/
theorem sub_fin_mono {x y : Double} {c : ℚ} (h : Double.le x y = true) :
    Double.le (Double.sub x (Double.fin c)) (Double.sub y (Double.fin c)) = true := by
  cases x with
  | nan => simp [Double.le] at h
  | inf s =>
    cases y with
    | nan => simp [Double.le] at h
    | inf t => cases s <;> cases t <;> simp_all [Double.sub, Double.neg, Double.add, Double.le]
    | fin q =>
      cases s
      · simp [Double.le] at h
      · simp only [Double.sub, Double.neg, Double.add]
        exact inf_neg_le_of_ne_nan (round_ne_nan _)
  | fin p =>
    cases y with
    | nan => simp [Double.le] at h
    | inf t =>
      cases t
      · simp only [Double.sub, Double.neg, Double.add]
        exact le_inf_pos_of_ne_nan (round_ne_nan _)
      · simp [Double.le] at h
    | fin q =>
      simp only [Double.le, decide_eq_true_eq] at h
      simp only [Double.sub, Double.neg, Double.add]
      exact round_mono (by linarith)

theorem ofInt_mono {a b : ℤ} (h : a ≤ b) : Double.le (ofInt a) (ofInt b) = true := by
  unfold ofInt
  exact round_mono (by exact_mod_cast h)

/-- One truncating multiplication by a positive constant is monotone in the integer. -/
theorem scale_mono {b b' r r' : ℤ} {kd : Double} {k : ℚ} (hk : kd = Double.fin k) (hk0 : 0 < k)
    (h : b ≤ b') (hr : scale b kd = some r) (hr' : scale b' kd = some r') : r ≤ r' := by
  subst hk
  unfold scale at hr hr'
  exact toInt_mono (mul_fin_mono hk0 (ofInt_mono h)) hr hr'

/-- On a non-negative integer a larger positive multiplier gives a larger result. -/
theorem scale_const_mono {b r r' : ℤ} {kd kd' : Double} {k k' : ℚ} (hk : kd = Double.fin k)
    (hk' : kd' = Double.fin k') (hk0 : 0 < k) (hkk : k ≤ k') (hb : 0 ≤ b)
    (hr : scale b kd = some r) (hr' : scale b kd' = some r') : r ≤ r' := by
  subst hk hk'
  unfold scale at hr hr'
  have h0 : Double.le (Double.fin 0) (ofInt b) = true := by
    have := ofInt_mono hb
    rwa [ofInt_zero] at this
  exact toInt_mono (mul_const_mono h0 hk0 hkk) hr hr'

theorem scale_zero {kd : Double} {k : ℚ} (hk : kd = Double.fin k) : scale 0 kd = some 0 := by
  subst hk
  unfold scale
  rw [ofInt_zero]
  simp only [Double.mul, zero_mul, round_zero]
  decide!

theorem scale_nonpos {b r : ℤ} {kd : Double} {k : ℚ} (hk : kd = Double.fin k) (hk0 : 0 < k)
    (hb : b ≤ 0) (hr : scale b kd = some r) : r ≤ 0 :=
  scale_mono hk hk0 hb hr (scale_zero hk)

theorem scale_nonneg {b r : ℤ} {kd : Double} {k : ℚ} (hk : kd = Double.fin k) (hk0 : 0 < k)
    (hb : 0 ≤ b) (hr : scale b kd = some r) : 0 ≤ r :=
  scale_mono hk hk0 hb (scale_zero hk) hr

/-- A multiplier of at most one does not increase a non-negative `int`. -/
theorem scale_le_self {b r : ℤ} {kd : Double} {k : ℚ} (hk : kd = Double.fin k)
    (hk1 : k ≤ 1) (hb : 0 ≤ b) (hb2 : b ≤ 2147483647) (hr : scale b kd = some r) : r ≤ b := by
  subst hk
  unfold scale at hr
  have hex : ofInt b = Double.fin (b : ℚ) :=
    ofInt_exact b (by rw [abs_of_nonneg hb]; omega)
  have hbq : (0 : ℚ) ≤ (b : ℚ) := by exact_mod_cast hb
  have h1 : Double.le (Double.mul (ofInt b) (Double.fin k)) (ofInt b) = true := by
    rw [hex]
    simp only [Double.mul]
    have hm := round_mono (a := (b : ℚ) * k) (b := (b : ℚ)) (by nlinarith)
    have hex' : Double.round (b : ℚ) = Double.fin (b : ℚ) := hex
    rwa [hex'] at hm
  have h2 : (ofInt b).toInt = some b := by
    rw [hex]
    simp only [Double.toInt]
    have ht : truncQ (b : ℚ) = b := by
      unfold truncQ
      rw [if_pos hbq, Int.floor_intCast]
    rw [ht, if_pos ⟨by omega, by omega⟩]
  exact toInt_mono h1 hr h2

theorem step_mono (g : Prop) [Decidable g] {b b' r r' : ℤ} {kd : Double} {k : ℚ}
    (hk : kd = Double.fin k) (hk0 : 0 < k) (h : b ≤ b')
    (hr : (if g then scale b kd else some b) = some r)
    (hr' : (if g then scale b' kd else some b') = some r') : r ≤ r' := by
  split_ifs at hr hr'
  · exact scale_mono hk hk0 h hr hr'
  · simp only [Option.some.injEq] at hr hr'
    omega

theorem step_nonpos (g : Prop) [Decidable g] {b r : ℤ} {kd : Double} {k : ℚ}
    (hk : kd = Double.fin k) (hk0 : 0 < k) (hb : b ≤ 0)
    (hr : (if g then scale b kd else some b) = some r) : r ≤ 0 := by
  split_ifs at hr
  · exact scale_nonpos hk hk0 hb hr
  · simp only [Option.some.injEq] at hr
    omega

theorem step_range (g : Prop) [Decidable g] {b r : ℤ} {kd : Double}
    (hb : -2147483648 ≤ b ∧ b ≤ 2147483647)
    (hr : (if g then scale b kd else some b) = some r) :
    -2147483648 ≤ r ∧ r ≤ 2147483647 := by
  split_ifs at hr
  · exact toInt_range hr
  · simp only [Option.some.injEq] at hr
    subst hr
    exact hb

theorem clamp_mono (e : DecisionEngine) {x y : ℤ} (hcfg : e.min_duration ≤ e.max_duration)
    (h : x ≤ y) : clamp e x ≤ clamp e y := by
  unfold clamp
  split_ifs <;> omega

theorem clamp_of_nonpos (e : DecisionEngine) {x : ℤ} (hmin : 0 ≤ e.min_duration)
    (hcfg : e.min_duration ≤ e.max_duration) (h : x ≤ 0) : clamp e x = e.min_duration := by
  unfold clamp
  split_ifs <;> omega


/-- The five conversions of `raw_duration`, one after the other. -/
theorem raw_duration_eq_some (c : SystemConditions) (r : ℤ) :
    raw_duration c = some r ↔
      ∃ b0 b1 b2 b3,
        (Double.mul (Double.sub c.et0 (lit 2)) (ofInt 10)).toInt = some b0 ∧
        (if Double.gt c.temperature (ofInt 35) then scale b0 (lit (13 / 10))
          else some b0) = some b1 ∧
        (if c.mode = IrrigationMode.MODE_CONSERVATION then scale b1 (lit (7 / 10))
          else if c.mode = IrrigationMode.MODE_EXTREME then scale b1 (lit (1 / 2))
          else some b1) = some b2 ∧
        (if !c.power_available then scale b2 (lit (4 / 5)) else some b2) = some b3 ∧
        (if is_optimal_time c.hour then scale b3 (lit (11 / 10)) else some b3) = some r := by
  unfold raw_duration
  simp only [Option.bind_eq_some]
  constructor
  · rintro ⟨b0, h0, b1, h1, b2, h2, b3, h3, h4⟩
    exact ⟨b0, b1, b2, b3, h0, h1, h2, h3, h4⟩
  · rintro ⟨b0, b1, b2, b3, h0, h1, h2, h3, h4⟩
    exact ⟨b0, h0, b1, h1, b2, h2, b3, h3, h4⟩

theorem calculate_duration_eq_some (e : DecisionEngine) (c : SystemConditions) (d : ℤ) :
    calculate_duration e c = some d ↔ ∃ r, raw_duration c = some r ∧ d = clamp e r := by
  unfold calculate_duration
  cases raw_duration c with
  | none => simp
  | some r => simp [eq_comm]

/-- The last two steps (power, optimal window) are monotone in the value they receive. -/
theorem tail_mono (c : SystemConditions) {b2 b2' b3 b3' r r' : ℤ} (h : b2 ≤ b2')
    (h3 : (if !c.power_available then scale b2 (lit (4 / 5)) else some b2) = some b3)
    (h3' : (if !c.power_available then scale b2' (lit (4 / 5)) else some b2') = some b3')
    (h4 : (if is_optimal_time c.hour then scale b3 (lit (11 / 10)) else some b3) = some r)
    (h4' : (if is_optimal_time c.hour then scale b3' (lit (11 / 10)) else some b3') = some r') :
    r ≤ r' :=
  step_mono _ lit_11_10 (by norm_num) (step_mono _ lit_4_5 (by norm_num) h h3 h3') h4 h4'

theorem tail_nonpos (c : SystemConditions) {b2 b3 r : ℤ} (h : b2 ≤ 0)
    (h3 : (if !c.power_available then scale b2 (lit (4 / 5)) else some b2) = some b3)
    (h4 : (if is_optimal_time c.hour then scale b3 (lit (11 / 10)) else some b3) = some r) :
    r ≤ 0 :=
  step_nonpos _ lit_11_10 (by norm_num) (step_nonpos _ lit_4_5 (by norm_num) h h3) h4


/-! ## The raw duration of a positive decision is at least two -/

theorem le_four_of_not_lt {x : Double} (h1 : Double.lt (Double.fin (5 / 2)) x = true)
    (h2 : Double.lt x (Double.fin 4) = false) : Double.le (Double.fin 4) x = true := by
  cases x with
  | nan => simp [Double.lt] at h1
  | inf s => simpa [Double.lt, Double.le] using h1
  | fin q =>
    simp only [Double.lt, Double.le, decide_eq_true_eq, decide_eq_false_iff_not, not_lt] at *
    exact h2

/-- The first conversion of `calculate_duration` yields at least 20 once ET0 is at least 4. -/
theorem base_ge_twenty {x : Double} {b : ℤ} (hx : Double.le (Double.fin 4) x = true)
    (h : (Double.mul (Double.sub x (lit 2)) (ofInt 10)).toInt = some b) : 20 ≤ b := by
  rw [lit_two, ofInt_ten] at h
  refine toInt_ge (by norm_num) ?_ h
  have h1 : Double.le (Double.fin 2) (Double.sub x (Double.fin 2)) = true :=
    sub_fin_ge hx lit_two (by norm_num)
  have h2 : Double.le (Double.fin 10) (Double.fin 10) = true := by simp [Double.le]
  exact mul_ge (by norm_num) (by norm_num) h1 h2 (ofInt_exact 20 (by norm_num)) (by norm_num)

/-- Whenever the rule cascade answers yes and the duration is defined, the
duration before clamping is at least two seconds. -/
theorem raw_duration_ge_two (e : DecisionEngine) (c : SystemConditions) (r : ℤ)
    (hs : should_irrigate e c = true) (h : raw_duration c = some r) : 2 ≤ r := by
  have hgt := should_irrigate_gt e c hs
  obtain ⟨_, _, hpow, _⟩ := (should_irrigate_eq_true_iff e c).mp hs
  obtain ⟨b0, b1, b2, b3, h0, h1, h2, h3, h4⟩ := (raw_duration_eq_some c r).mp h
  cases hp : c.power_available with
  | true =>
    rw [hp] at h3
    simp only [Bool.not_true, Bool.false_eq_true, if_false, Option.some.injEq] at h3
    subst h3
    have hb0 : 5 ≤ b0 := base_ge_five hgt h0
    have hb1 : 5 ≤ b1 :=
      step_ge _ lit_13_10 (by norm_num) (by norm_num) hb0 (by norm_num) le_rfl
        round_int_5 round_int_5 (by norm_num) h1
    have hb2 : 2 ≤ b2 := by
      by_cases hc : c.mode = IrrigationMode.MODE_CONSERVATION
      · rw [if_pos hc] at h2
        have : 3 ≤ b2 :=
          scale_ge lit_7_10 (by norm_num) (by norm_num) hb1 (by norm_num)
            round_int_5 round_int_3 (by norm_num) h2
        omega
      · rw [if_neg hc] at h2
        exact step_ge _ lit_1_2 (by norm_num) (by norm_num) hb1 (by norm_num) (by norm_num)
          round_int_5 round_int_2 (by norm_num) h2
    exact step_ge _ lit_11_10 (by norm_num) (by norm_num) hb2 (by norm_num) le_rfl
      round_int_2 round_int_2 (by norm_num) h4
  | false =>
    have h4le := le_four_of_not_lt hgt (hpow hp)
    have hb0 : 20 ≤ b0 := base_ge_twenty h4le h0
    have r20 : Double.round ((20 : ℤ) : ℚ) = Double.fin ((20 : ℤ) : ℚ) :=
      ofInt_exact 20 (by norm_num)
    have r10 : Double.round ((10 : ℤ) : ℚ) = Double.fin ((10 : ℤ) : ℚ) :=
      ofInt_exact 10 (by norm_num)
    have r8 : Double.round ((8 : ℤ) : ℚ) = Double.fin ((8 : ℤ) : ℚ) :=
      ofInt_exact 8 (by norm_num)
    have hb1 : 20 ≤ b1 :=
      step_ge _ lit_13_10 (by norm_num) (by norm_num) hb0 (by norm_num) le_rfl
        r20 r20 (by norm_num) h1
    have hb2 : 10 ≤ b2 := by
      by_cases hc : c.mode = IrrigationMode.MODE_CONSERVATION
      · rw [if_pos hc] at h2
        exact scale_ge lit_7_10 (by norm_num) (by norm_num) hb1 (by norm_num)
          r20 r10 (by norm_num) h2
      · rw [if_neg hc] at h2
        exact step_ge _ lit_1_2 (by norm_num) (by norm_num) hb1 (by norm_num) (by norm_num)
          r20 r10 (by norm_num) h2
    have hb3 : 8 ≤ b3 :=
      step_ge _ lit_4_5 (by norm_num) (by norm_num) hb2 (by norm_num) (by norm_num)
        r10 r8 (by norm_num) h3
    have hr : 8 ≤ r :=
      step_ge _ lit_11_10 (by norm_num) (by norm_num) hb3 (by norm_num) le_rfl
        r8 r8 (by norm_num) h4
    omega


/-! ## Rounding is idempotent -/

theorem roundHalfEven_eq_zero {x : ℚ} (h0 : 0 ≤ x) (h1 : x < 1 / 2) : roundHalfEven x = 0 := by
  have hf : ⌊x⌋ = 0 := by
    rw [Int.floor_eq_iff]
    constructor
    · simpa using h0
    · have : x < 1 := by linarith
      simpa using this
  unfold roundHalfEven
  rw [hf]
  have h2 : x - ((0 : ℤ) : ℚ) < 1 / 2 := by simpa using h1
  rw [if_pos h2]

theorem roundMag_zero : roundMag 0 = 0 := by
  unfold roundMag
  have : roundHalfEven (0 / (2 : ℚ) ^ quantum 0) = 0 := by
    rw [zero_div]
    exact roundHalfEven_eq_zero le_rfl (by norm_num)
  rw [this]
  simp

theorem roundMag_eq_of_grid {r : ℚ} {n t : ℤ} (ht : quantum r ≤ t)
    (h : r = (n : ℚ) * (2 : ℚ) ^ t) : roundMag r = r := by
  have h1 := roundMag_le_grid (q := r) (n := n) ht h.le
  have h2 := grid_le_roundMag (q := r) (n := n) ht h.ge
  rw [← h] at h1 h2
  exact le_antisymm h1 h2

/-- A rounded magnitude is a fixed point of the rounding. -/
theorem roundMag_idem {q : ℚ} (hq : 0 < q) : roundMag (roundMag q) = roundMag q := by
  have hr0 : 0 ≤ roundMag q := roundMag_nonneg hq.le
  rcases hr0.lt_or_eq with hr | hr
  · have hspec := ilog2_spec q hq
    have hrspec := ilog2_spec (roundMag q) hr
    have hqp : -1074 ≤ quantum q := le_max_right _ _
    rcases le_or_lt (ilog2 (roundMag q)) (ilog2 q) with hle | hlt
    · have hquant : quantum (roundMag q) ≤ quantum q := by
        unfold quantum
        exact max_le_max (by omega) le_rfl
      exact roundMag_eq_of_grid (n := roundHalfEven (q / (2 : ℚ) ^ quantum q)) hquant rfl
    · have hlow : (2 : ℚ) ^ (ilog2 q + 1) ≤ roundMag q :=
        le_trans (zpow_le_zpow_right₀ (by norm_num) (by omega)) hrspec.1
      have hp : quantum q ≤ ilog2 q + 1 := by
        by_contra hcon
        have hlt2 : ilog2 q + 1 ≤ quantum q - 1 := by omega
        have hP : (0 : ℚ) < (2 : ℚ) ^ quantum q := zpow_pos (by norm_num) _
        have hx : q / (2 : ℚ) ^ quantum q < 1 / 2 := by
          rw [div_lt_iff₀ hP]
          have h1 : (2 : ℚ) ^ (ilog2 q + 1) ≤ (2 : ℚ) ^ (quantum q - 1) :=
            zpow_le_zpow_right₀ (by norm_num) hlt2
          have h2 : (2 : ℚ) ^ (quantum q - 1) = 1 / 2 * (2 : ℚ) ^ quantum q := by
            rw [zpow_sub_one₀ (by norm_num : (2 : ℚ) ≠ 0)]
            ring
          linarith [hspec.2]
        have hz := roundHalfEven_eq_zero (div_nonneg hq.le hP.le) hx
        have : roundMag q = 0 := by
          unfold roundMag
          rw [hz]
          simp
        linarith
      have hup : roundMag q ≤ ((1 : ℤ) : ℚ) * (2 : ℚ) ^ (ilog2 q + 1) := by
        apply roundMag_le_grid hp
        rw [Int.cast_one, one_mul]
        exact hspec.2.le
      rw [Int.cast_one, one_mul] at hup
      have heq : roundMag q = (2 : ℚ) ^ (ilog2 q + 1) := le_antisymm hup hlow
      have hil : ilog2 (roundMag q) ≤ ilog2 q + 1 := by
        have h1 : (2 : ℚ) ^ ilog2 (roundMag q) ≤ (2 : ℚ) ^ (ilog2 q + 1) := by
          rw [← heq]; exact hrspec.1
        exact (zpow_le_zpow_iff_right₀ (by norm_num : (1 : ℚ) < 2)).mp h1
      have hquant : quantum (roundMag q) ≤ ilog2 q + 1 := by
        unfold quantum
        exact max_le (by omega) (by omega)
      exact roundMag_eq_of_grid (n := 1) hquant (by rw [Int.cast_one, one_mul]; exact heq)
  · rw [← hr, roundMag_zero]

/-- The result of a rounding is a binary64 value: rounding it again changes nothing. -/
theorem round_idem {q r : ℚ} (h : Double.round q = Double.fin r) :
    Double.round r = Double.fin r := by
  rcases lt_trichotomy q 0 with hq | hq | hq
  · rw [round_of_neg hq] at h
    split_ifs at h with hov
    simp only [Double.fin.injEq] at h
    have hm0 : 0 ≤ roundMag (-q) := roundMag_nonneg (by linarith)
    rcases hm0.lt_or_eq with hpos | hz
    · have hr : r < 0 := by linarith
      rw [round_of_neg hr]
      have : roundMag (-r) = roundMag (-q) := by
        rw [← h, neg_neg]
        exact roundMag_idem (by linarith)
      rw [this, if_neg hov, h]
    · have : r = 0 := by rw [← h, ← hz]; simp
      rw [this]
      exact round_zero
  · subst hq
    rw [round_zero] at h
    simp only [Double.fin.injEq] at h
    rw [← h]
    exact round_zero
  · rw [round_of_pos hq] at h
    split_ifs at h with hov
    simp only [Double.fin.injEq] at h
    have hm0 : 0 ≤ roundMag q := roundMag_nonneg hq.le
    rcases hm0.lt_or_eq with hpos | hz
    · have hr : 0 < r := by linarith
      rw [round_of_pos hr]
      have : roundMag r = roundMag q := by
        rw [← h]
        exact roundMag_idem hq
      rw [this, if_neg hov, h]
    · have : r = 0 := by rw [← h, ← hz]
      rw [this]
      exact round_zero


/-! ## Interval bounds through the arithmetic -/

theorem round_le {k q : ℚ} (hk : Double.round k = Double.fin k) (h : q ≤ k) :
    Double.le (Double.round q) (Double.fin k) = true := by
  rw [← hk]
  exact round_mono h

theorem within_round {lo hi q : ℚ} (hlo : Double.round lo = Double.fin lo)
    (hhi : Double.round hi = Double.fin hi) (h1 : lo ≤ q) (h2 : q ≤ hi) :
    Double.within lo hi (Double.round q) := by
  have a := round_ge hlo h1
  have b := round_le hhi h2
  cases hr : Double.round q with
  | nan => rw [hr] at a; simp [Double.le] at a
  | inf s => rw [hr] at a b; cases s <;> simp [Double.le] at a b
  | fin r =>
    rw [hr] at a b
    simp only [Double.le, decide_eq_true_eq] at a b
    exact ⟨r, rfl, a, b⟩

theorem within_fin (k : ℚ) : Double.within k k (Double.fin k) := ⟨k, rfl, le_rfl, le_rfl⟩

theorem le_of_within {lo hi : ℚ} {x : Double} (h : Double.within lo hi x) :
    Double.le (Double.fin lo) x = true := by
  obtain ⟨q, rfl, a, _⟩ := h
  simpa [Double.le] using a

theorem within_of_le_le {lo hi : ℚ} {x : Double} (h1 : Double.le (Double.fin lo) x = true)
    (h2 : Double.le x (Double.fin hi) = true) : Double.within lo hi x := by
  cases x with
  | nan => simp [Double.le] at h1
  | inf s => cases s <;> simp [Double.le] at h1 h2
  | fin q =>
    simp only [Double.le, decide_eq_true_eq] at h1 h2
    exact ⟨q, rfl, h1, h2⟩

theorem mul_within {x y : Double} {a b c d lo hi : ℚ} (hx : Double.within a b x)
    (hy : Double.within c d y) (hlo : Double.round lo = Double.fin lo)
    (hhi : Double.round hi = Double.fin hi)
    (hb : ∀ p q, a ≤ p → p ≤ b → c ≤ q → q ≤ d → lo ≤ p * q ∧ p * q ≤ hi) :
    Double.within lo hi (Double.mul x y) := by
  obtain ⟨p, rfl, hp1, hp2⟩ := hx
  obtain ⟨q, rfl, hq1, hq2⟩ := hy
  simp only [Double.mul]
  exact within_round hlo hhi (hb p q hp1 hp2 hq1 hq2).1 (hb p q hp1 hp2 hq1 hq2).2

theorem add_within {x y : Double} {a b c d lo hi : ℚ} (hx : Double.within a b x)
    (hy : Double.within c d y) (hlo : Double.round lo = Double.fin lo)
    (hhi : Double.round hi = Double.fin hi) (h1 : lo ≤ a + c) (h2 : b + d ≤ hi) :
    Double.within lo hi (Double.add x y) := by
  obtain ⟨p, rfl, hp1, hp2⟩ := hx
  obtain ⟨q, rfl, hq1, hq2⟩ := hy
  simp only [Double.add]
  exact within_round hlo hhi (by linarith) (by linarith)

theorem sub_within {x y : Double} {a b c d lo hi : ℚ} (hx : Double.within a b x)
    (hy : Double.within c d y) (hlo : Double.round lo = Double.fin lo)
    (hhi : Double.round hi = Double.fin hi) (h1 : lo ≤ a - d) (h2 : b - c ≤ hi) :
    Double.within lo hi (Double.sub x y) := by
  obtain ⟨p, rfl, hp1, hp2⟩ := hx
  obtain ⟨q, rfl, hq1, hq2⟩ := hy
  simp only [Double.sub, Double.neg, Double.add]
  exact within_round hlo hhi (by linarith) (by linarith)

theorem div_within {x y : Double} {a b c d lo hi : ℚ} (hx : Double.within a b x)
    (hy : Double.within c d y) (hc : 0 < c) (hlo : Double.round lo = Double.fin lo)
    (hhi : Double.round hi = Double.fin hi)
    (hb : ∀ p q, a ≤ p → p ≤ b → c ≤ q → q ≤ d → lo ≤ p / q ∧ p / q ≤ hi) :
    Double.within lo hi (Double.div x y) := by
  obtain ⟨p, rfl, hp1, hp2⟩ := hx
  obtain ⟨q, rfl, hq1, hq2⟩ := hy
  have hq0 : q ≠ 0 := (lt_of_lt_of_le hc hq1).ne'
  simp only [Double.div, hq0, if_false]
  exact within_round hlo hhi (hb p q hp1 hp2 hq1 hq2).1 (hb p q hp1 hp2 hq1 hq2).2

/-- Sum of two values bounded below. -/
theorem add_ge {x y : Double} {a b c : ℚ} (hx : Double.le (Double.fin a) x = true)
    (hy : Double.le (Double.fin b) y = true) (hc : Double.round c = Double.fin c)
    (hcab : c ≤ a + b) : Double.le (Double.fin c) (Double.add x y) = true := by
  rcases (le_fin_iff a x).mp hx with rfl | ⟨p, rfl, hp⟩ <;>
    rcases (le_fin_iff b y).mp hy with rfl | ⟨q, rfl, hq⟩
  · rfl
  · rfl
  · rfl
  · simp only [Double.add]
    exact round_ge hc (by linarith)

/-- Quotient of a value bounded below by a finite positive divisor. -/
theorem div_ge {x y : Double} {a dlo dhi c : ℚ} (hx : Double.le (Double.fin a) x = true)
    (hy : Double.within dlo dhi y) (ha : 0 ≤ a) (hd : 0 < dlo)
    (hc : Double.round c = Double.fin c) (hca : c ≤ a / dhi) :
    Double.le (Double.fin c) (Double.div x y) = true := by
  obtain ⟨q, rfl, hq1, hq2⟩ := hy
  have hq0 : 0 < q := lt_of_lt_of_le hd hq1
  rcases (le_fin_iff a x).mp hx with rfl | ⟨p, rfl, hp⟩
  · simp [Double.div, Double.le, not_lt.mpr hq0.le]
  · simp only [Double.div, hq0.ne', if_false]
    apply round_ge hc
    have h1 : a / dhi ≤ a / q := div_le_div_of_nonneg_left ha hq0 hq2
    have h2 : a / q ≤ p / q := div_le_div_of_nonneg_right hp hq0.le
    linarith

/-- A positive constant times a non-negative value is non-negative. -/
theorem mul_nonneg_ge {x y : Double} {a b : ℚ} (hx : Double.within a b x) (ha : 0 < a)
    (hy : Double.le (Double.fin 0) y = true) :
    Double.le (Double.fin 0) (Double.mul x y) = true := by
  obtain ⟨p, rfl, hp1, _⟩ := hx
  have hp0 : 0 < p := lt_of_lt_of_le ha hp1
  rcases (le_fin_iff 0 y).mp hy with rfl | ⟨q, rfl, hq⟩
  · simp [Double.mul, Double.le, hp0.ne', not_lt.mpr hp0.le]
  · simp only [Double.mul]
    exact round_ge round_zero (mul_nonneg hp0.le hq)

/-- A positive constant times a value bounded above stays bounded above. -/
theorem mul_const_le {y : Double} {k b c : ℚ} (hk : 0 < k)
    (hy : Double.le y (Double.fin b) = true) (hc : Double.round c = Double.fin c)
    (hkb : k * b ≤ c) : Double.le (Double.mul (Double.fin k) y) (Double.fin c) = true := by
  cases y with
  | nan => simp [Double.le] at hy
  | inf s =>
    cases s
    · simp [Double.le] at hy
    · simp [Double.mul, Double.le, hk.ne', not_lt.mpr hk.le]
  | fin q =>
    simp only [Double.le, decide_eq_true_eq] at hy
    simp only [Double.mul]
    exact round_le hc (le_trans (mul_le_mul_of_nonneg_left hy hk.le) hkb)

/-- A finite value minus a value bounded above is bounded below. -/
theorem fin_sub_ge {y : Double} {a b c : ℚ} (hy : Double.le y (Double.fin b) = true)
    (hc : Double.round c = Double.fin c) (hcab : c ≤ a - b) :
    Double.le (Double.fin c) (Double.sub (Double.fin a) y) = true := by
  cases y with
  | nan => simp [Double.le] at hy
  | inf s =>
    cases s
    · simp [Double.le] at hy
    · rfl
  | fin q =>
    simp only [Double.le, decide_eq_true_eq] at hy
    simp only [Double.sub, Double.neg, Double.add]
    exact round_ge hc (by linarith)

theorem le_of_lt_fin {x : Double} {k : ℚ} (h : Double.lt x (Double.fin k) = true) :
    Double.le x (Double.fin k) = true := by
  cases x with
  | nan => simp [Double.lt] at h
  | inf s => simpa [Double.lt, Double.le] using h
  | fin q =>
    simp only [Double.lt, Double.le, decide_eq_true_eq] at h ⊢
    exact h.le

theorem lt_of_pos_le {x : Double} {k : ℚ} (hk : 0 < k) (h : Double.le (Double.fin k) x = true) :
    Double.lt (Double.fin 0) x = true := by
  rcases (le_fin_iff k x).mp h with rfl | ⟨q, rfl, hq⟩
  · rfl
  · simp only [Double.lt, decide_eq_true_eq]
    linarith


/-! ## Binary64 values of the constants of et0_calculator.c -/

theorem lit_0065 : lit (65 / 10000) = Double.fin (7493989779944505 / 1152921504606846976) := by
  decide!

theorem lit_1013 : lit (1013 / 10) = Double.fin (7128353785197363 / 70368744177664) := by
  decide!

theorem lit_665 : lit (665 / 1000000) = Double.fin (3066771202254213 / 4611686018427387904) := by
  decide!

theorem lit_6108 : lit (6108 / 10000) = Double.fin (2750798652397899 / 4503599627370496) := by
  decide!

theorem lit_1727 : lit (1727 / 100) = Double.fin (4861072847793029 / 281474976710656) := by
  decide!

theorem lit_2373 : lit (2373 / 10) = Double.fin (4174625748339917 / 17592186044416) := by
  decide!

theorem lit_408 : lit (408 / 1000) = Double.fin (7349874591868649 / 18014398509481984) := by
  decide!

theorem lit_27315 : lit (27315 / 100) = Double.fin (2402652809016115 / 8796093022208) := by
  decide!

theorem lit_34 : lit (34 / 100) = Double.fin (6124895493223875 / 18014398509481984) := by
  decide!

theorem lit_293 : lit 293 = Double.fin 293 := by decide!

theorem lit_100 : lit 100 = Double.fin 100 := by decide!

theorem ofInt_4098 : ofInt 4098 = Double.fin 4098 := by decide!

theorem ofInt_900 : ofInt 900 = Double.fin 900 := by decide!

theorem ofInt_one : ofInt 1 = Double.fin 1 := by decide!

theorem ofInt_45000 : ofInt 45000 = Double.fin 45000 := by decide!

theorem ofInt_neg_1000 : ofInt (-1000) = Double.fin (-1000) := by decide!

/-! ## Ranges of the intermediate values of `calculate_et0` -/

/-- A non-negative constant times a value of a known range. -/
theorem mul_const_within {y : Double} {k c d lo hi : ℚ} (hk : 0 ≤ k)
    (hy : Double.within c d y) (hlo : Double.round lo = Double.fin lo)
    (hhi : Double.round hi = Double.fin hi) (h1 : lo ≤ k * c) (h2 : k * d ≤ hi) :
    Double.within lo hi (Double.mul (Double.fin k) y) := by
  obtain ⟨q, rfl, hq1, hq2⟩ := hy
  simp only [Double.mul]
  exact within_round hlo hhi (le_trans h1 (mul_le_mul_of_nonneg_left hq1 hk))
    (le_trans (mul_le_mul_of_nonneg_left hq2 hk) h2)

/-- For a temperature in `[-10, 50]` the saturation vapour pressure is a
binary64 value in `[1/8, 40]`. -/
theorem saturation_within (m : Libm) (hm : m.inRange) {T : Double}
    (hT : Double.within (-10) 50 T) :
    ∃ es, saturation_vapor_pressure m T = Double.fin es ∧ 1 / 8 ≤ es ∧ es ≤ 40 ∧
      Double.round es = Double.fin es := by
  have y1 : Double.within (-173) 864 (Double.mul (lit (1727 / 100)) T) := by
    rw [lit_1727]
    exact mul_const_within (by norm_num) hT (by decide!) (by decide!) (by norm_num)
      (by norm_num)
  have y2 : Double.within 227 288 (Double.add T (lit (2373 / 10))) := by
    rw [lit_2373]
    exact add_within hT (within_fin _) (by decide!) (by decide!) (by norm_num) (by norm_num)
  have y3 : Double.within (-1) 4
      (Double.div (Double.mul (lit (1727 / 100)) T) (Double.add T (lit (2373 / 10)))) := by
    refine div_within y1 y2 (by norm_num) (by decide!) (by decide!) ?_
    intro p q hp1 hp2 hq1 hq2
    have hq0 : (0 : ℚ) < q := by linarith
    constructor
    · rw [le_div_iff₀ hq0]; linarith
    · rw [div_le_iff₀ hq0]; linarith
  have ve := hm.1 _ y3
  have hes : Double.within (1 / 8) 40 (saturation_vapor_pressure m T) := by
    unfold saturation_vapor_pressure
    rw [lit_6108]
    exact mul_const_within (by norm_num) ve (by decide!) (by decide!) (by norm_num)
      (by norm_num)
  obtain ⟨es, hes1, hlo, hhi⟩ := hes
  refine ⟨es, hes1, hlo, hhi, ?_⟩
  -- the value is the result of a rounded multiplication
  obtain ⟨v, hv, _, _⟩ := ve
  unfold saturation_vapor_pressure at hes1
  rw [lit_6108, hv] at hes1
  simp only [Double.mul] at hes1
  exact round_idem hes1

/-- For a temperature in `[-10, 50]` the slope of the vapour pressure curve
lies in `[1/256, 8]`. -/
theorem slope_within (m : Libm) (hm : m.inRange) {T : Double}
    (hT : Double.within (-10) 50 T) :
    Double.within (1 / 256) 8 (slope_vapor_pressure m T) := by
  obtain ⟨es, hes, hlo, hhi, _⟩ := saturation_within m hm hT
  have y2 : Double.within 227 288 (Double.add T (lit (2373 / 10))) := by
    rw [lit_2373]
    exact add_within hT (within_fin _) (by decide!) (by decide!) (by norm_num) (by norm_num)
  have d2 := hm.2.1 _ y2
  have d1 : Double.within 512 163920 (Double.mul (ofInt 4098) (saturation_vapor_pressure m T)) := by
    rw [ofInt_4098]
    exact mul_const_within (by norm_num) ⟨es, hes, hlo, hhi⟩ (by decide!) (by decide!)
      (by norm_num) (by norm_num)
  unfold slope_vapor_pressure
  refine div_within d1 d2 (by norm_num) (by decide!) (by decide!) ?_
  intro p q hp1 hp2 hq1 hq2
  have hq0 : (0 : ℚ) < q := by linarith
  constructor
  · rw [le_div_iff₀ hq0]; linarith
  · rw [div_le_iff₀ hq0]; linarith


/-- For an altitude below 45000 the psychrometric constant stored by `et0_init`
is at least `2^-63` (possibly `+inf`). -/
theorem gamma_ge (m : Libm) (hm : m.inRange) (wind_speed : Double) {altitude : Double}
    (halt : Double.le altitude (Double.fin 45000) = true) :
    Double.le (Double.fin (1 / 9223372036854775808))
      (et0_init m wind_speed altitude).gamma = true := by
  have x1 : Double.le (Double.mul (lit (65 / 10000)) altitude) (Double.fin (1171 / 4)) = true := by
    rw [lit_0065]
    exact mul_const_le (by norm_num) halt (by decide!) (by norm_num)
  have x2 : Double.le (Double.fin (1 / 4))
      (Double.sub (lit 293) (Double.mul (lit (65 / 10000)) altitude)) = true := by
    rw [lit_293]
    exact fin_sub_ge x1 (by decide!) (by norm_num)
  have x3 : Double.le (Double.fin (1 / 2048))
      (Double.div (Double.sub (lit 293) (Double.mul (lit (65 / 10000)) altitude))
        (lit 293)) = true := by
    have h293 : Double.within 293 293 (lit 293) := by rw [lit_293]; exact within_fin _
    exact div_ge x2 h293 (by norm_num) (by norm_num) (by decide!) (by norm_num)
  have v := hm.2.2.1 _ x3
  have hk1 : Double.le (Double.fin (7128353785197363 / 70368744177664)) (lit (1013 / 10)) = true := by
    rw [lit_1013]; simp [Double.le]
  have hp : Double.le (Double.fin (1 / 4503599627370496))
      (et0_init m wind_speed altitude).pressure = true :=
    mul_ge (by norm_num) (by norm_num) hk1 v (by decide!) (by norm_num)
  have hk2 : Double.le (Double.fin (3066771202254213 / 4611686018427387904))
      (lit (665 / 1000000)) = true := by
    rw [lit_665]; simp [Double.le]
  exact mul_ge (by norm_num) (by norm_num) hk2 hp (by decide!) (by norm_num)

/-- For an altitude in `[-1000, 45000]` the psychrometric constant stored by
`et0_init` is finite and lies in `[2^-63, 1/4]`. -/
theorem gamma_within (m : Libm) (hm : m.inRange) (wind_speed : Double) {altitude : Double}
    (halt : Double.within (-1000) 45000 altitude) :
    Double.within (1 / 9223372036854775808) (1 / 4) (et0_init m wind_speed altitude).gamma := by
  have x1 : Double.within (-7) (1171 / 4) (Double.mul (lit (65 / 10000)) altitude) := by
    rw [lit_0065]
    exact mul_const_within (by norm_num) halt (by decide!) (by decide!) (by norm_num)
      (by norm_num)
  have x2 : Double.within (1 / 4) 300
      (Double.sub (lit 293) (Double.mul (lit (65 / 10000)) altitude)) := by
    rw [lit_293]
    exact sub_within (within_fin _) x1 (by decide!) (by decide!) (by norm_num) (by norm_num)
  have x3 : Double.within (1 / 2048) (33 / 32)
      (Double.div (Double.sub (lit 293) (Double.mul (lit (65 / 10000)) altitude))
        (lit 293)) := by
    have h293 : Double.within 293 293 (lit 293) := by rw [lit_293]; exact within_fin _
    refine div_within x2 h293 (by norm_num) (by decide!) (by decide!) ?_
    intro p q hp1 hp2 hq1 hq2
    have hq0 : (0 : ℚ) < q := by linarith
    constructor
    · rw [le_div_iff₀ hq0]; linarith
    · rw [div_le_iff₀ hq0]; linarith
  have v := hm.2.2.2 _ x3
  have hp : Double.within (1 / 4503599627370496) 256 (et0_init m wind_speed altitude).pressure := by
    show Double.within _ _ (Double.mul (lit (1013 / 10)) _)
    rw [lit_1013]
    exact mul_const_within (by norm_num) v (by decide!) (by decide!) (by norm_num)
      (by norm_num)
  show Double.within _ _ (Double.mul (lit (665 / 1000000)) _)
  rw [lit_665]
  exact mul_const_within (by norm_num) hp (by decide!) (by decide!) (by norm_num)
    (by norm_num)

/-- The denominator is at least `1/256` for every non-negative wind speed
(`+inf` included) and every altitude below 45000. -/
theorem denominator_ge (m : Libm) (hm : m.inRange) {wind_speed altitude T : Double}
    (hws : Double.le (Double.fin 0) wind_speed = true)
    (halt : Double.le altitude (Double.fin 45000) = true)
    (hT : Double.within (-10) 50 T) :
    Double.le (Double.fin (1 / 256))
      (et0_denominator m (et0_init m wind_speed altitude) T) = true := by
  have hg := gamma_ge m hm wind_speed halt
  have hd := le_of_within (slope_within m hm hT)
  have k34 : Double.within (6124895493223875 / 18014398509481984)
      (6124895493223875 / 18014398509481984) (lit (34 / 100)) := by
    rw [lit_34]; exact within_fin _
  have z1 : Double.le (Double.fin 0) (Double.mul (lit (34 / 100)) wind_speed) = true :=
    mul_nonneg_ge k34 (by norm_num) hws
  have h1 : Double.le (Double.fin 1) (ofInt 1) = true := by rw [ofInt_one]; simp [Double.le]
  have z2 : Double.le (Double.fin 1)
      (Double.add (ofInt 1) (Double.mul (lit (34 / 100)) wind_speed)) = true :=
    add_ge h1 z1 (by decide!) (by norm_num)
  have z3 : Double.le (Double.fin (1 / 9223372036854775808))
      (Double.mul (et0_init m wind_speed altitude).gamma
        (Double.add (ofInt 1) (Double.mul (lit (34 / 100)) wind_speed))) = true :=
    mul_ge (by norm_num) (by norm_num) hg z2 (by decide!) (by norm_num)
  unfold et0_denominator
  exact add_ge hd z3 (by decide!) (by norm_num)

theorem dbl_max_ge : (1024 : ℚ) ≤ dbl_max := by
  unfold dbl_max
  norm_num

/-- For a finite wind speed and an altitude in `[-1000, 45000]` the denominator
is finite. -/
theorem denominator_within (m : Libm) (hm : m.inRange) {wind_speed altitude T : Double}
    (hws : Double.within 0 dbl_max wind_speed)
    (halt : Double.within (-1000) 45000 altitude)
    (hT : Double.within (-10) 50 T) :
    Double.within (1 / 256) dbl_max (et0_denominator m (et0_init m wind_speed altitude) T) := by
  have hM := dbl_max_ge
  have hg := gamma_within m hm wind_speed halt
  have hd := slope_within m hm hT
  have z1 : Double.within 0 (dbl_max / 2) (Double.mul (lit (34 / 100)) wind_speed) := by
    rw [lit_34]
    exact mul_const_within (by norm_num) hws (by decide!) (by decide!) (by norm_num)
      (by linarith)
  have z2 : Double.within 1 dbl_max
      (Double.add (ofInt 1) (Double.mul (lit (34 / 100)) wind_speed)) := by
    rw [ofInt_one]
    exact add_within (within_fin _) z1 (by decide!) (by decide!) (by norm_num) (by linarith)
  have z3 : Double.within (1 / 9223372036854775808) (dbl_max / 4)
      (Double.mul (et0_init m wind_speed altitude).gamma
        (Double.add (ofInt 1) (Double.mul (lit (34 / 100)) wind_speed))) := by
    refine mul_within hg z2 (by decide!) (by decide!) ?_
    intro p q hp1 hp2 hq1 hq2
    have hp0 : (0 : ℚ) ≤ p := le_trans (by norm_num) hp1
    constructor
    · calc (1 / 9223372036854775808 : ℚ) = 1 / 9223372036854775808 * 1 := by ring
        _ ≤ p * q := mul_le_mul hp1 hq1 (by norm_num) hp0
    · calc p * q ≤ 1 / 4 * dbl_max := mul_le_mul hp2 hq2 (by linarith) (by norm_num)
        _ = dbl_max / 4 := by ring
  unfold et0_denominator
  exact add_within hd z3 (by decide!) (by decide!) (by norm_num) (by linarith)


/-- The product of two finite non-negative values is non-negative (possibly `+inf`). -/
theorem mul_within_nonneg {x y : Double} {a b c d : ℚ} (hx : Double.within a b x)
    (hy : Double.within c d y) (ha : 0 ≤ a) (hc : 0 ≤ c) :
    Double.le (Double.fin 0) (Double.mul x y) = true := by
  obtain ⟨p, rfl, hp1, _⟩ := hx
  obtain ⟨q, rfl, hq1, _⟩ := hy
  simp only [Double.mul]
  exact round_ge round_zero (mul_nonneg (le_trans ha hp1) (le_trans hc hq1))

/-- For a finite wind speed, an altitude in `[-1000, 45000]`, a temperature in
`[-10, 50]`, a humidity in `[0, 100]` and a non-negative radiation the numerator
is non-negative (possibly `+inf`), in particular not a NaN. -/
theorem numerator_nonneg (m : Libm) (hm : m.inRange)
    {wind_speed altitude T H R : Double}
    (hws : Double.within 0 dbl_max wind_speed)
    (halt : Double.within (-1000) 45000 altitude)
    (hT : Double.within (-10) 50 T) (hH : Double.within 0 100 H)
    (hR : Double.le (Double.fin 0) R = true) :
    Double.le (Double.fin 0)
      (et0_numerator m (et0_init m wind_speed altitude) T H R) = true := by
  have hg := gamma_within m hm wind_speed halt
  have hd := slope_within m hm hT
  obtain ⟨es, hes, hes1, hes2, hrep⟩ := saturation_within m hm hT
  -- radiation term
  have a1 : Double.within (1 / 1024) 4
      (Double.mul (lit (408 / 1000)) (slope_vapor_pressure m T)) := by
    rw [lit_408]
    exact mul_const_within (by norm_num) hd (by decide!) (by decide!) (by norm_num)
      (by norm_num)
  have hA : Double.le (Double.fin 0)
      (Double.mul (Double.mul (lit (408 / 1000)) (slope_vapor_pressure m T)) R) = true :=
    mul_nonneg_ge a1 (by norm_num) hR
  -- aerodynamic term
  have t1 : Double.within 263 324 (Double.add T (lit (27315 / 100))) := by
    rw [lit_27315]
    exact add_within hT (within_fin _) (by decide!) (by decide!) (by norm_num) (by norm_num)
  have c1 : Double.within 2 4
      (Double.div (ofInt 900) (Double.add T (lit (27315 / 100)))) := by
    rw [ofInt_900]
    refine div_within (within_fin _) t1 (by norm_num) (by decide!) (by decide!) ?_
    intro p q hp1 hp2 hq1 hq2
    have hq0 : (0 : ℚ) < q := by linarith
    constructor
    · rw [le_div_iff₀ hq0]; linarith
    · rw [div_le_iff₀ hq0]; linarith
  have g1 : Double.within 0 1
      (Double.mul (et0_init m wind_speed altitude).gamma
        (Double.div (ofInt 900) (Double.add T (lit (27315 / 100))))) := by
    refine mul_within hg c1 round_zero (by decide!) ?_
    intro p q hp1 hp2 hq1 hq2
    have hp0 : (0 : ℚ) ≤ p := le_trans (by norm_num) hp1
    constructor
    · exact mul_nonneg hp0 (by linarith)
    · calc p * q ≤ 1 / 4 * 4 := mul_le_mul hp2 hq2 (by linarith) (by norm_num)
        _ = 1 := by norm_num
  have hM := dbl_max_ge
  have g2 : Double.within 0 dbl_max
      (Double.mul
        (Double.mul (et0_init m wind_speed altitude).gamma
          (Double.div (ofInt 900) (Double.add T (lit (27315 / 100)))))
        (et0_init m wind_speed altitude).wind_speed) := by
    refine mul_within g1 hws round_zero (by decide!) ?_
    intro p q hp1 hp2 hq1 hq2
    constructor
    · exact mul_nonneg hp1 hq1
    · calc p * q ≤ 1 * dbl_max := mul_le_mul hp2 hq2 hq1 (by norm_num)
        _ = dbl_max := one_mul _
  have hh : Double.within 0 1 (Double.div H (lit 100)) := by
    rw [lit_100]
    refine div_within hH (within_fin _) (by norm_num) round_zero (by decide!) ?_
    intro p q hp1 hp2 hq1 hq2
    have hq0 : (0 : ℚ) < q := by linarith
    constructor
    · exact div_nonneg hp1 hq0.le
    · rw [div_le_iff₀ hq0]; linarith
  have hea : Double.within 0 es (actual_vapor_pressure m T H) := by
    unfold actual_vapor_pressure
    rw [hes]
    refine mul_within hh (within_fin es) round_zero hrep ?_
    intro p q hp1 hp2 hq1 hq2
    have hq0 : (0 : ℚ) ≤ q := by linarith
    constructor
    · exact mul_nonneg hp1 hq0
    · calc p * q ≤ 1 * es := mul_le_mul hp2 hq2 hq0 (by norm_num)
        _ = es := one_mul _
  have hs : Double.within 0 40
      (Double.sub (saturation_vapor_pressure m T) (actual_vapor_pressure m T H)) := by
    rw [hes]
    exact sub_within (within_fin es) hea round_zero (by decide!) (by linarith) (by linarith)
  have hB := mul_within_nonneg g2 hs le_rfl le_rfl
  unfold et0_numerator
  exact add_ge hA hB round_zero (by norm_num)

theorem calculate_et0_eq (m : Libm) (calculator : ET0Calculator) (T H R : Double) :
    calculate_et0 m calculator T H R =
      if (!validate_inputs T H R) = true then ofInt (-1)
      else if Double.eq (et0_denominator m calculator T) (ofInt 0) = true then ofInt (-1)
      else if (Double.ge (Double.div (et0_numerator m calculator T H R)
            (et0_denominator m calculator T)) (ofInt 0) &&
          Double.le (Double.div (et0_numerator m calculator T H R)
            (et0_denominator m calculator T)) (ofInt 15)) = true then
        Double.div (et0_numerator m calculator T H R) (et0_denominator m calculator T)
      else ofInt (-1) := rfl

theorem le_eq_not_gt {x : Double} {k : ℚ} (hx : Double.le (Double.fin 0) x = true) :
    Double.le x (Double.fin k) = !Double.gt x (Double.fin k) := by
  unfold Double.gt
  rcases (le_fin_iff 0 x).mp hx with rfl | ⟨q, rfl, _⟩
  · rfl
  · by_cases h : q ≤ k
    · simp [Double.le, Double.lt, h]
    · simp [Double.le, Double.lt, h, not_le.mp h]

/-- Under the conditions of `numerator_nonneg` the quotient `et0` is
non-negative, and `calculate_et0` returns `-1` exactly when `et0 > 15`. -/
theorem calculate_et0_of_valid (m : Libm) (hm : m.inRange)
    {wind_speed altitude T H R : Double}
    (hws : Double.within 0 dbl_max wind_speed)
    (halt : Double.within (-1000) 45000 altitude)
    (hT : Double.within (-10) 50 T) (hH : Double.within 0 100 H)
    (hR : Double.le (Double.fin 0) R = true) :
    Double.le (Double.fin 0)
        (Double.div (et0_numerator m (et0_init m wind_speed altitude) T H R)
          (et0_denominator m (et0_init m wind_speed altitude) T)) = true ∧
      calculate_et0 m (et0_init m wind_speed altitude) T H R =
        if Double.gt (Double.div (et0_numerator m (et0_init m wind_speed altitude) T H R)
            (et0_denominator m (et0_init m wind_speed altitude) T)) (ofInt 15) = true
        then ofInt (-1)
        else Double.div (et0_numerator m (et0_init m wind_speed altitude) T H R)
          (et0_denominator m (et0_init m wind_speed altitude) T) := by
  have hn := numerator_nonneg m hm hws halt hT hH hR
  have hd := denominator_within m hm hws halt hT
  have het0 : Double.le (Double.fin 0)
      (Double.div (et0_numerator m (et0_init m wind_speed altitude) T H R)
        (et0_denominator m (et0_init m wind_speed altitude) T)) = true :=
    div_ge hn hd le_rfl (by norm_num) round_zero (by simp)
  refine ⟨het0, ?_⟩
  have hv : validate_inputs T H R = true := by
    obtain ⟨t, rfl, ht1, ht2⟩ := hT
    obtain ⟨hq, rfl, hh1, hh2⟩ := hH
    rcases (le_fin_iff 0 R).mp hR with rfl | ⟨r, rfl, hr⟩
    · simp [validate_inputs, ofInt_neg_ten, ofInt_fifty, ofInt_zero, ofInt_hundred,
        Double.lt, Double.gt, ht1, ht2, hh1, hh2]
    · simp [validate_inputs, ofInt_neg_ten, ofInt_fifty, ofInt_zero, ofInt_hundred,
        Double.lt, Double.gt, ht1, ht2, hh1, hh2, hr]
  have hden : Double.eq (et0_denominator m (et0_init m wind_speed altitude) T) (ofInt 0)
      = false := by
    obtain ⟨d, hdq, hd1, _⟩ := hd
    rw [hdq, ofInt_zero]
    simp only [Double.eq, decide_eq_false_iff_not]
    intro h0
    rw [h0] at hd1
    norm_num at hd1
  rw [calculate_et0_eq, hv, hden]
  simp only [Bool.not_true, Bool.false_eq_true, if_false]
  rw [ofInt_fifteen]
  simp only [Double.ge, ofInt_zero, het0, Bool.true_and]
  rw [le_eq_not_gt het0]
  cases Double.gt (Double.div (et0_numerator m (et0_init m wind_speed altitude) T H R)
    (et0_denominator m (et0_init m wind_speed altitude) T)) (Double.fin 15) <;> simp

theorem within_of_bounds {x : Double} {a b lo hi : Double} {p q : ℚ}
    (ha : a = Double.fin p) (hb : b = Double.fin q) (hlo : lo = a) (hhi : hi = b)
    (h1 : Double.ge x lo = true) (h2 : Double.le x hi = true) : Double.within p q x := by
  subst hlo hhi ha hb
  exact within_of_le_le h1 h2

/-- The stand-in library satisfies the range conditions. -/
theorem libm_standin_inRange : libm_standin.inRange := by
  have hne : lit (526 / 100) ≠ ofInt 2 := by decide!
  refine ⟨?_, ?_, ?_, ?_⟩
  · intro x _
    exact ⟨1, rfl, by norm_num, by norm_num⟩
  · intro x hx
    show Double.within _ _ (if ofInt 2 = ofInt 2 then Double.mul x x else Double.fin 1)
    rw [if_pos rfl]
    refine mul_within hx hx (by decide!) (by decide!) ?_
    intro p q hp1 hp2 hq1 hq2
    constructor <;> nlinarith
  · intro x _
    show Double.le _ (if lit (526 / 100) = ofInt 2 then Double.mul x x else Double.fin 1) = true
    rw [if_neg hne]
    simp only [Double.le, decide_eq_true_eq]
    norm_num
  · intro x _
    show Double.within _ _ (if lit (526 / 100) = ofInt 2 then Double.mul x x else Double.fin 1)
    rw [if_neg hne]
    exact ⟨1, rfl, by norm_num, by norm_num⟩

/-! ## Claims -/

/-- Claim C1 fails as stated: the engine with bounds `(0, 0)` satisfies
`0 ≤ min_duration ≤ max_duration`, yet on scenario 1 `make_decision` answers
`should_water = true` together with `duration = 0`. -/
theorem make_decision_zero_bounds_counterexample :
    0 ≤ (engine_init 0 0).min_duration ∧
      (engine_init 0 0).min_duration ≤ (engine_init 0 0).max_duration ∧
      make_decision (engine_init 0 0) scenario1 = some (true, 0) := by
  refine ⟨by decide, by decide, by decide!⟩

/-- Claim C1 (amended): for every engine with `0 ≤ min_duration ≤ max_duration`
and `1 ≤ max_duration`, whenever `make_decision` produces its outputs (every
conversion to `int` is defined), `duration = 0` if and only if
`should_water = false`. -/
theorem make_decision_zero_iff (e : DecisionEngine) (c : SystemConditions) (w : Bool) (d : ℤ)
    (_hmin : 0 ≤ e.min_duration) (_hcfg : e.min_duration ≤ e.max_duration)
    (hmax : 1 ≤ e.max_duration) (h : make_decision e c = some (w, d)) :
    d = 0 ↔ w = false := by
  rcases make_decision_some e c w d h with ⟨_, hw, hd⟩ | ⟨hs, hw, b, hb, hd⟩
  · exact ⟨fun _ => hw, fun _ => hd⟩
  · have h1 : 1 ≤ b := raw_duration_pos e c b hs hb
    have h2 : 1 ≤ d := hd ▸ clamp_pos e b hmax h1
    subst hw
    constructor
    · intro h0; omega
    · intro hf; exact absurd hf (by decide)

theorem make_decision_zero_iff_witness : (27 : ℤ) = 0 ↔ true = false :=
  make_decision_zero_iff (engine_init 5 60) scenario1 true 27 (by decide) (by decide) (by decide)
    (by decide!)

/-- Claim C2: for every engine with `min_duration ≤ max_duration`, if
`make_decision` outputs `should_water = true` then the duration it outputs lies
in `[min_duration, max_duration]`. -/
theorem make_decision_duration_bounds (e : DecisionEngine) (c : SystemConditions) (d : ℤ)
    (hcfg : e.min_duration ≤ e.max_duration) (h : make_decision e c = some (true, d)) :
    e.min_duration ≤ d ∧ d ≤ e.max_duration := by
  rcases make_decision_some e c true d h with ⟨_, hw, _⟩ | ⟨_, _, b, _, hd⟩
  · exact absurd hw (by decide)
  · subst hd
    exact ⟨clamp_ge_min e b hcfg, clamp_le_max e b hcfg⟩

theorem make_decision_duration_bounds_witness :
    (engine_init 5 60).min_duration ≤ 35 ∧ 35 ≤ (engine_init 5 60).max_duration :=
  make_decision_duration_bounds (engine_init 5 60) scenario4 35 (by decide) (by decide!)

/-- Claim C3: whenever `water_level < 500`, `should_irrigate` is false and
`make_decision` returns `(false, 0)`, whatever the other fields are. -/
theorem water_floor_absolute (e : DecisionEngine) (c : SystemConditions)
    (h : c.water_level < 500) :
    should_irrigate e c = false ∧ make_decision e c = some (false, 0) := by
  have hs := should_irrigate_low_water e c h
  refine ⟨hs, ?_⟩
  unfold make_decision
  simp [hs]

theorem water_floor_absolute_witness :
    should_irrigate (engine_init 5 60) { scenario4 with water_level := 499 } = false ∧
      make_decision (engine_init 5 60) { scenario4 with water_level := 499 } = some (false, 0) :=
  water_floor_absolute (engine_init 5 60) { scenario4 with water_level := 499 } (by decide)

/-- Claim C4: for every calculator, every math library and all three inputs,
`calculate_et0` returns either the marker `-1` or a value `et0` with
`0 <= et0` and `et0 <= 15`. -/
theorem calculate_et0_range (m : Libm) (calculator : ET0Calculator)
    (temperature humidity radiation : Double) :
    calculate_et0 m calculator temperature humidity radiation = ofInt (-1) ∨
      (Double.le (ofInt 0) (calculate_et0 m calculator temperature humidity radiation) = true ∧
        Double.le (calculate_et0 m calculator temperature humidity radiation) (ofInt 15) = true) := by
  unfold calculate_et0
  simp only [Double.ge]
  split_ifs with h1 h2 h3
  · exact Or.inl rfl
  · exact Or.inl rfl
  · right
    simpa using h3
  · exact Or.inl rfl

/-- First half of claim C5, which the code satisfies: an input below or above
its range makes `calculate_et0` return the marker `-1`. -/
theorem calculate_et0_rejects (m : Libm) (calculator : ET0Calculator)
    (temperature humidity radiation : Double)
    (h : Double.lt temperature (ofInt (-10)) = true ∨ Double.gt temperature (ofInt 50) = true ∨
      Double.lt humidity (ofInt 0) = true ∨ Double.gt humidity (ofInt 100) = true ∨
      Double.lt radiation (ofInt 0) = true) :
    calculate_et0 m calculator temperature humidity radiation = ofInt (-1) := by
  have hv : validate_inputs temperature humidity radiation = false := by
    unfold validate_inputs
    rcases h with h | h | h | h | h <;> simp [h]
  unfold calculate_et0
  simp [hv]

/-- Claim C5 at its failing input: `validate_inputs` accepts a NaN temperature
(every comparison with a NaN is false), although a NaN is not in `[-10, 50]`. -/
theorem validate_inputs_accepts_nan :
    validate_inputs Double.nan (ofInt 50) (ofInt 5) = true ∧
      (Double.le (ofInt (-10)) Double.nan && Double.le Double.nan (ofInt 50)) = false := by
  constructor <;> decide!

/-- Claim C6: `is_optimal_time hour` holds exactly for the hours 7, 8, 9, 17, 18, 19. -/
theorem is_optimal_time_iff (hour : ℤ) :
    is_optimal_time hour = true ↔
      hour = 7 ∨ hour = 8 ∨ hour = 9 ∨ hour = 17 ∨ hour = 18 ∨ hour = 19 := by
  unfold is_optimal_time
  simp only [Bool.or_eq_true, Bool.and_eq_true, decide_eq_true_eq]
  omega

/-- Claim C7: with the engine `(5, 60)`, scenario 1 gives `(true, 27)` and
scenario 4 gives `(true, 35)`. -/
theorem worked_examples_1_and_4 :
    make_decision (engine_init 5 60) scenario1 = some (true, 27) ∧
      make_decision (engine_init 5 60) scenario4 = some (true, 35) := by
  constructor <;> decide!

/-- Claim C8: at a temperature of exactly 35, outside the optimal windows, with
power, enough water and mode Normal, `should_irrigate` is the test `ET0 > 3.5`
and `calculate_duration` is the clamp of the first conversion with no
multiplier applied; scenario 2 gives `(true, 40)` with the engine `(5, 60)`. -/
theorem heat_rule_strict (e : DecisionEngine) (c : SystemConditions)
    (ht : c.temperature = ofInt 35) (hh : is_optimal_time c.hour = false)
    (hp : c.power_available = true) (hw : 500 ≤ c.water_level)
    (hm : c.mode = IrrigationMode.MODE_NORMAL) :
    should_irrigate e c = Double.gt c.et0 (lit (7 / 2)) ∧
      calculate_duration e c =
        ((Double.mul (Double.sub c.et0 (lit 2)) (ofInt 10)).toInt).map (clamp e) ∧
      make_decision (engine_init 5 60) scenario2 = some (true, 40) := by
  have h35 : Double.gt (ofInt 35) (ofInt 35) = false := by decide!
  refine ⟨?_, ?_, by decide!⟩
  · unfold should_irrigate
    rw [ht, hh, hp, hm, h35]
    have hw2 : ¬ c.water_level < 500 := not_lt.mpr hw
    by_cases h2 : Double.lt c.et0 (lit 2) = true
    · rw [if_pos h2]
      rw [lit_two] at h2
      rw [lit_seven_halves]
      exact (lt_two_not_gt _ h2).symm
    · simp [h2, hw2]
  · unfold calculate_duration raw_duration
    rw [ht, hh, hp, hm, h35]
    cases (Double.mul (Double.sub c.et0 (lit 2)) (ofInt 10)).toInt <;> rfl

theorem heat_rule_strict_witness :
    should_irrigate (engine_init 5 60) scenario2 = Double.gt scenario2.et0 (lit (7 / 2)) ∧
      calculate_duration (engine_init 5 60) scenario2 =
        ((Double.mul (Double.sub scenario2.et0 (lit 2)) (ofInt 10)).toInt).map
          (clamp (engine_init 5 60)) ∧
      make_decision (engine_init 5 60) scenario2 = some (true, 40) :=
  heat_rule_strict (engine_init 5 60) scenario2 rfl (by decide) rfl (by decide) rfl

/-- Claim C9: without power and with `ET0 < 4.0`, `should_irrigate` is false and
`make_decision` returns `(false, 0)`, whatever the hour and the temperature. -/
theorem no_power_low_demand (e : DecisionEngine) (c : SystemConditions)
    (hp : c.power_available = false) (h : Double.lt c.et0 (lit 4) = true) :
    should_irrigate e c = false ∧ make_decision e c = some (false, 0) := by
  have hs : should_irrigate e c = false := by
    unfold should_irrigate
    split_ifs <;> simp_all
  refine ⟨hs, ?_⟩
  unfold make_decision
  simp [hs]

theorem no_power_low_demand_witness :
    should_irrigate (engine_init 5 60) scenario3 = false ∧
      make_decision (engine_init 5 60) scenario3 = some (false, 0) :=
  no_power_low_demand (engine_init 5 60) scenario3 (by decide) (by decide!)

/-- Claim C10 fails as stated: `engine_init 10 5` produces an engine whose
`min_duration` exceeds its `max_duration`. -/
theorem engine_init_inverted_bounds_counterexample :
    (engine_init 10 5).min_duration = 10 ∧ (engine_init 10 5).max_duration = 5 ∧
      (engine_init 10 5).min_duration > (engine_init 10 5).max_duration := by
  decide

/-- Claim C10 (amended): `engine_init` performs no validation; for all
arguments it returns an engine holding exactly the two bounds it was given, so
the engine satisfies `min_duration ≤ max_duration` exactly when the arguments do. -/
theorem engine_init_stores_bounds (min_duration max_duration : ℤ) :
    (engine_init min_duration max_duration).min_duration = min_duration ∧
      (engine_init min_duration max_duration).max_duration = max_duration ∧
      ((engine_init min_duration max_duration).min_duration ≤
          (engine_init min_duration max_duration).max_duration ↔
        min_duration ≤ max_duration) :=
  ⟨rfl, rfl, Iff.rfl⟩


/-- Claim C11 fails as stated: with the engine `(5, 60)` and ET0 200000002 at
hour 8 (other fields of scenario 1) `should_irrigate` is true, the durations
under Extreme and Conservation are both 60, but under Normal the last step
converts `2000000000 * 1.1` to `int`, which does not fit in 32 bits, so the
Normal duration is undefined. -/
theorem normal_mode_overflow_counterexample :
    0 ≤ (engine_init 5 60).min_duration ∧
      (engine_init 5 60).min_duration ≤ (engine_init 5 60).max_duration ∧
      should_irrigate (engine_init 5 60)
        { scenario1 with et0 := lit 200000002, mode := IrrigationMode.MODE_NORMAL } = true ∧
      calculate_duration (engine_init 5 60)
        { scenario1 with et0 := lit 200000002, mode := IrrigationMode.MODE_EXTREME } = some 60 ∧
      calculate_duration (engine_init 5 60)
        { scenario1 with et0 := lit 200000002, mode := IrrigationMode.MODE_CONSERVATION } =
          some 60 ∧
      calculate_duration (engine_init 5 60)
        { scenario1 with et0 := lit 200000002, mode := IrrigationMode.MODE_NORMAL } = none ∧
      ¬ ∃ dC dN : ℤ,
        calculate_duration (engine_init 5 60)
          { scenario1 with et0 := lit 200000002, mode := IrrigationMode.MODE_CONSERVATION } =
            some dC ∧
        calculate_duration (engine_init 5 60)
          { scenario1 with et0 := lit 200000002, mode := IrrigationMode.MODE_NORMAL } =
            some dN ∧
        dC ≤ dN := by
  have hN : calculate_duration (engine_init 5 60)
      { scenario1 with et0 := lit 200000002, mode := IrrigationMode.MODE_NORMAL } = none := by
    decide!
  refine ⟨by decide, by decide, by decide!, by decide!, by decide!, hN, ?_⟩
  rintro ⟨dC, dN, _, h, _⟩
  rw [hN] at h
  exact Option.noConfusion h

/-- Claim C11 (amended): for every engine with `0 ≤ min_duration ≤ max_duration`
and three conditions that differ only in the mode, whenever the three durations
are defined (every conversion to `int` is defined), `calculate_duration` under
Extreme is at most the one under Conservation, which is at most the one under
Normal. -/
theorem mode_scaling_order (e : DecisionEngine) (c : SystemConditions) (dE dC dN : ℤ)
    (hmin : 0 ≤ e.min_duration) (hcfg : e.min_duration ≤ e.max_duration)
    (hE : calculate_duration e { c with mode := IrrigationMode.MODE_EXTREME } = some dE)
    (hC : calculate_duration e { c with mode := IrrigationMode.MODE_CONSERVATION } = some dC)
    (hN : calculate_duration e { c with mode := IrrigationMode.MODE_NORMAL } = some dN) :
    dE ≤ dC ∧ dC ≤ dN := by
  obtain ⟨rE, hrE, rfl⟩ := (calculate_duration_eq_some _ _ _).mp hE
  obtain ⟨rC, hrC, rfl⟩ := (calculate_duration_eq_some _ _ _).mp hC
  obtain ⟨rN, hrN, rfl⟩ := (calculate_duration_eq_some _ _ _).mp hN
  obtain ⟨b0, b1, e2, e3, h0, h1, he2, he3, he4⟩ := (raw_duration_eq_some _ _).mp hrE
  obtain ⟨b0', b1', c2, c3, h0', h1', hc2, hc3, hc4⟩ := (raw_duration_eq_some _ _).mp hrC
  obtain ⟨b0'', b1'', n2, n3, h0'', h1'', hn2, hn3, hn4⟩ := (raw_duration_eq_some _ _).mp hrN
  simp only at h0 h1 he2 he3 he4 h0' h1' hc2 hc3 hc4 h0'' h1'' hn2 hn3 hn4
  rw [h0] at h0' h0''
  obtain rfl : b0 = b0' := Option.some.inj h0'
  obtain rfl : b0 = b0'' := Option.some.inj h0''
  rw [h1] at h1' h1''
  obtain rfl : b1 = b1' := Option.some.inj h1'
  obtain rfl : b1 = b1'' := Option.some.inj h1''
  rw [if_pos trivial] at he2 hc2
  rw [if_neg (by decide), if_neg (by decide)] at hn2
  obtain rfl : b1 = n2 := Option.some.inj hn2
  have hrange : -2147483648 ≤ b1 ∧ b1 ≤ 2147483647 := step_range _ (toInt_range h0) h1
  rcases le_or_lt 0 b1 with hpos | hneg
  · have hEC : e2 ≤ c2 :=
      scale_const_mono lit_1_2 lit_7_10 (by norm_num) (by norm_num) hpos he2 hc2
    have hCN : c2 ≤ b1 := scale_le_self lit_7_10 (by norm_num) hpos hrange.2 hc2
    exact ⟨clamp_mono e hcfg (tail_mono c hEC he3 hc3 he4 hc4),
      clamp_mono e hcfg (tail_mono c hCN hc3 hn3 hc4 hn4)⟩
  · have hE0 : e2 ≤ 0 := scale_nonpos lit_1_2 (by norm_num) hneg.le he2
    have hC0 : c2 ≤ 0 := scale_nonpos lit_7_10 (by norm_num) hneg.le hc2
    have tE := tail_nonpos c hE0 he3 he4
    have tC := tail_nonpos c hC0 hc3 hc4
    have tN := tail_nonpos c hneg.le hn3 hn4
    rw [clamp_of_nonpos e hmin hcfg tE, clamp_of_nonpos e hmin hcfg tC,
      clamp_of_nonpos e hmin hcfg tN]
    exact ⟨le_rfl, le_rfl⟩

theorem mode_scaling_order_witness : (20 : ℤ) ≤ 28 ∧ (28 : ℤ) ≤ 40 :=
  mode_scaling_order (engine_init 5 60) scenario2 20 28 40 (by decide) (by decide)
    (by decide!) (by decide!) (by decide!)

/-- Claim C19 fails as stated: with the engine `(5, 60)` and the other fields
of scenario 2, ET0 4.5 gives the duration 25, while at the larger ET0
214748366.8 the first conversion `(int)((et0 - 2.0) * 10)` has the value
`2^31`, which does not fit in 32 bits, so the duration is undefined. -/
theorem et0_overflow_counterexample :
    (engine_init 5 60).min_duration ≤ (engine_init 5 60).max_duration ∧
      Double.le (lit (9 / 2)) (lit (1073741834 / 5)) = true ∧
      calculate_duration (engine_init 5 60) { scenario2 with et0 := lit (9 / 2) } = some 25 ∧
      calculate_duration (engine_init 5 60)
        { scenario2 with et0 := lit (1073741834 / 5) } = none ∧
      ¬ ∃ d_low d_high : ℤ,
        calculate_duration (engine_init 5 60) { scenario2 with et0 := lit (9 / 2) } =
          some d_low ∧
        calculate_duration (engine_init 5 60)
          { scenario2 with et0 := lit (1073741834 / 5) } = some d_high ∧
        d_low ≤ d_high := by
  have hH : calculate_duration (engine_init 5 60)
      { scenario2 with et0 := lit (1073741834 / 5) } = none := by
    decide!
  refine ⟨by decide, by decide!, by decide!, hH, ?_⟩
  rintro ⟨d_low, d_high, _, h, _⟩
  rw [hH] at h
  exact Option.noConfusion h

/-- Claim C19 (amended): for every engine with `min_duration ≤ max_duration` and
two conditions that differ only in ET0, with `et0_low <= et0_high`, whenever
both durations are defined (every conversion to `int` is defined),
`calculate_duration` at `et0_low` is at most `calculate_duration` at
`et0_high`. -/
theorem calculate_duration_mono (e : DecisionEngine) (c : SystemConditions)
    (et0_low et0_high : Double) (d_low d_high : ℤ)
    (hcfg : e.min_duration ≤ e.max_duration) (hle : Double.le et0_low et0_high = true)
    (hl : calculate_duration e { c with et0 := et0_low } = some d_low)
    (hh : calculate_duration e { c with et0 := et0_high } = some d_high) :
    d_low ≤ d_high := by
  obtain ⟨rl, hrl, rfl⟩ := (calculate_duration_eq_some _ _ _).mp hl
  obtain ⟨rh, hrh, rfl⟩ := (calculate_duration_eq_some _ _ _).mp hh
  obtain ⟨l0, l1, l2, l3, hl0, hl1, hl2, hl3, hl4⟩ := (raw_duration_eq_some _ _).mp hrl
  obtain ⟨g0, g1, g2, g3, hg0, hg1, hg2, hg3, hg4⟩ := (raw_duration_eq_some _ _).mp hrh
  simp only at hl0 hl1 hl2 hl3 hl4 hg0 hg1 hg2 hg3 hg4
  rw [lit_two, ofInt_ten] at hl0 hg0
  have m0 : l0 ≤ g0 :=
    toInt_mono (mul_fin_mono (by norm_num) (sub_fin_mono hle)) hl0 hg0
  have m1 : l1 ≤ g1 := step_mono _ lit_13_10 (by norm_num) m0 hl1 hg1
  have m2 : l2 ≤ g2 := by
    by_cases hc : c.mode = IrrigationMode.MODE_CONSERVATION
    · rw [if_pos hc] at hl2 hg2
      exact scale_mono lit_7_10 (by norm_num) m1 hl2 hg2
    · rw [if_neg hc] at hl2 hg2
      exact step_mono _ lit_1_2 (by norm_num) m1 hl2 hg2
  exact clamp_mono e hcfg (tail_mono c m2 hl3 hg3 hl4 hg4)

theorem calculate_duration_mono_witness : (27 : ℤ) ≤ 60 :=
  calculate_duration_mono (engine_init 5 60) scenario1 (lit (9 / 2)) (lit 8) 27 60
    (by decide) (by decide!) (by decide!) (by decide!)


/-- Claim C12: the calculator built by `et0_init` holds the wind speed and the
altitude it was given, `pressure = 101.3 * pow((293.0 - 0.0065 * altitude) / 293.0, 5.26)`
and `gamma = 0.000665 * pressure`; a call of `calculate_et0`, and hence any
sequence of calls, leaves the calculator unchanged. -/
theorem et0_init_fields_stable (m : Libm) (wind_speed altitude : Double)
    (calls : List (Double × Double × Double)) :
    (et0_init m wind_speed altitude).wind_speed = wind_speed ∧
      (et0_init m wind_speed altitude).altitude = altitude ∧
      (et0_init m wind_speed altitude).pressure =
        Double.mul (lit (1013 / 10))
          (m.pow (Double.div (Double.sub (lit 293) (Double.mul (lit (65 / 10000)) altitude))
            (lit 293)) (lit (526 / 100))) ∧
      (et0_init m wind_speed altitude).gamma =
        Double.mul (lit (665 / 1000000)) (et0_init m wind_speed altitude).pressure ∧
      (∀ t h r, (calculate_et0_call m (et0_init m wind_speed altitude) t h r).1 =
        et0_init m wind_speed altitude) ∧
      after_calls m (et0_init m wind_speed altitude) calls = et0_init m wind_speed altitude := by
  refine ⟨rfl, rfl, rfl, rfl, fun _ _ _ => rfl, ?_⟩
  induction calls with
  | nil => rfl
  | cons call rest ih =>
    obtain ⟨t, h, r⟩ := call
    simpa [after_calls, calculate_et0_call] using ih

/-- Claim C14: on the engine `(5, 60)` and the conditions ET0 4.4, temperature
25, hour 12, no power, water 1000, mode Conservation, `should_irrigate` is
true, `calculate_duration` (truncating after every step) returns 12, and the
clamp of the single truncation of base times the product of the multipliers
returns 13. -/
theorem truncation_order_observable :
    should_irrigate (engine_init 5 60) truncation_scenario = true ∧
      calculate_duration (engine_init 5 60) truncation_scenario = some 12 ∧
      single_truncation_duration (engine_init 5 60) truncation_scenario = some 13 ∧
      calculate_duration (engine_init 5 60) truncation_scenario ≠
        single_truncation_duration (engine_init 5 60) truncation_scenario := by
  refine ⟨by decide!, by decide!, by decide!, by decide!⟩


/-- Claim C13: under mode Extreme, outside the optimal windows and with
`temperature <= 35`, `should_irrigate` is false for every ET0; hence whenever
`should_irrigate` is true under Extreme it is true under any other mode (in
particular Normal) for conditions that differ only in the mode. -/
theorem extreme_rule_never_fires (e : DecisionEngine) (c : SystemConditions)
    (m : IrrigationMode) :
    (c.mode = IrrigationMode.MODE_EXTREME → is_optimal_time c.hour = false →
        Double.le c.temperature (ofInt 35) = true → should_irrigate e c = false) ∧
      (should_irrigate e { c with mode := IrrigationMode.MODE_EXTREME } = true →
        should_irrigate e { c with mode := m } = true) := by
  constructor
  · intro hm ho ht
    have hgt := not_gt_of_le ht
    cases hs : should_irrigate e c with
    | false => rfl
    | true =>
      rw [should_irrigate_eq_true_iff] at hs
      obtain ⟨_, _, _, h4⟩ := hs
      simp [ho, hgt, hm] at h4
  · intro hs
    rw [should_irrigate_eq_true_iff] at hs ⊢
    obtain ⟨h1, h2, h3, h4⟩ := hs
    refine ⟨h1, h2, h3, ?_⟩
    simp only at h4 ⊢
    by_cases ho : is_optimal_time c.hour = true
    · rw [if_pos ho] at h4 ⊢
      exact h4
    · rw [if_neg ho] at h4 ⊢
      by_cases ht : Double.gt c.temperature (ofInt 35) = true
      · rw [if_pos ht] at h4 ⊢
        exact h4
      · rw [if_neg ht] at h4
        simp at h4

theorem extreme_rule_never_fires_witness :
    should_irrigate (engine_init 5 60) { scenario4 with temperature := ofInt 30 } = false ∧
      should_irrigate (engine_init 5 60)
        { scenario4 with mode := IrrigationMode.MODE_NORMAL } = true :=
  ⟨(extreme_rule_never_fires (engine_init 5 60) { scenario4 with temperature := ofInt 30 }
      IrrigationMode.MODE_NORMAL).1 rfl (by decide) (by decide!),
    (extreme_rule_never_fires (engine_init 5 60) scenario4 IrrigationMode.MODE_NORMAL).2
      (by decide!)⟩

/-- Claim C15: if `should_irrigate` is true at a non-optimal hour, it is still
true when the hour is replaced by any optimal hour. -/
theorem optimal_hour_cheapest (e : DecisionEngine) (c : SystemConditions) (h : ℤ)
    (_hc : is_optimal_time c.hour = false) (hs : should_irrigate e c = true)
    (hh : is_optimal_time h = true) : should_irrigate e { c with hour := h } = true := by
  have hgt := should_irrigate_gt e c hs
  rw [should_irrigate_eq_true_iff] at hs ⊢
  obtain ⟨h1, h2, h3, _⟩ := hs
  refine ⟨h1, h2, h3, ?_⟩
  simp only
  rw [if_pos hh]
  exact hgt

theorem optimal_hour_cheapest_witness :
    should_irrigate (engine_init 5 60) { scenario2 with hour := 8 } = true :=
  optimal_hour_cheapest (engine_init 5 60) scenario2 8 (by decide) (by decide!) (by decide)

/-- Claim C16: when the ET0 field holds the marker `-1` of `calculate_et0`,
`make_decision` returns `should_water = false` and `duration = 0`. -/
theorem invalid_et0_never_irrigates (e : DecisionEngine) (c : SystemConditions)
    (h : c.et0 = ofInt (-1)) : make_decision e c = some (false, 0) := by
  have hs : should_irrigate e c = false := by
    unfold should_irrigate
    have : Double.lt c.et0 (lit 2) = true := by rw [h]; decide!
    rw [if_pos this]
  unfold make_decision
  simp [hs]

theorem invalid_et0_never_irrigates_witness :
    make_decision (engine_init 5 60) { scenario1 with et0 := ofInt (-1) } = some (false, 0) :=
  invalid_et0_never_irrigates (engine_init 5 60) { scenario1 with et0 := ofInt (-1) } rfl

/-- Claim C18: for two conditions that differ only in ET0, with
`et0_low <= et0_high`, `should_irrigate` true at `et0_low` implies
`should_irrigate` true at `et0_high`. -/
theorem should_irrigate_mono (e : DecisionEngine) (c : SystemConditions)
    (et0_low et0_high : Double) (hle : Double.le et0_low et0_high = true)
    (hs : should_irrigate e { c with et0 := et0_low } = true) :
    should_irrigate e { c with et0 := et0_high } = true := by
  rw [should_irrigate_eq_true_iff] at hs ⊢
  obtain ⟨h1, h2, h3, h4⟩ := hs
  simp only at h1 h2 h3 h4 ⊢
  refine ⟨not_lt_fin_of_le hle h1, h2, fun hp => not_lt_fin_of_le hle (h3 hp), ?_⟩
  split_ifs at h4 ⊢
  · exact lt_fin_of_le hle h4
  · exact lt_fin_of_le hle h4
  · exact lt_fin_of_le hle h4

theorem should_irrigate_mono_witness :
    should_irrigate (engine_init 5 60) { scenario2 with et0 := lit 8 } = true :=
  should_irrigate_mono (engine_init 5 60) scenario2 (lit 6) (lit 8) (by decide!) (by decide!)


/-- Claim C17 fails as stated: with the engine `(0, 60)` and ET0 `10^12` (other
fields of scenario 1) `should_irrigate` is true, but the first conversion
`(int)((et0 - 2.0) * 10)` does not fit in 32 bits: there is no unclamped
duration and `make_decision` has no defined outputs, let alone a duration of
at least 1. -/
theorem huge_et0_undefined_counterexample :
    (engine_init 0 60).min_duration ≤ (engine_init 0 60).max_duration ∧
      1 ≤ (engine_init 0 60).max_duration ∧
      should_irrigate (engine_init 0 60) { scenario1 with et0 := lit 1000000000000 } = true ∧
      raw_duration { scenario1 with et0 := lit 1000000000000 } = none ∧
      make_decision (engine_init 0 60) { scenario1 with et0 := lit 1000000000000 } = none ∧
      ¬ ∃ r : ℤ, raw_duration { scenario1 with et0 := lit 1000000000000 } = some r ∧ 2 ≤ r := by
  have hr : raw_duration { scenario1 with et0 := lit 1000000000000 } = none := by decide!
  refine ⟨by decide, by decide, by decide!, hr, by decide!, ?_⟩
  rintro ⟨r, h, _⟩
  rw [hr] at h
  exact Option.noConfusion h

/-- Claim C17 (amended): for every engine with `min_duration ≤ max_duration` and
`max_duration ≥ 1`, whenever `make_decision` produces its outputs (every
conversion to `int` is defined) with `should_water = true`, the duration is at
least 1; it is the clamp of a raw duration that is at least 2. -/
theorem positive_decision_positive_duration (e : DecisionEngine) (c : SystemConditions)
    (d : ℤ) (_hcfg : e.min_duration ≤ e.max_duration) (hmax : 1 ≤ e.max_duration)
    (h : make_decision e c = some (true, d)) :
    1 ≤ d ∧ ∃ r, raw_duration c = some r ∧ d = clamp e r ∧ 2 ≤ r := by
  rcases make_decision_some e c true d h with ⟨_, hw, _⟩ | ⟨hs, _, b, hb, hd⟩
  · exact absurd hw (by decide)
  · have h2 : 2 ≤ b := raw_duration_ge_two e c b hs hb
    exact ⟨hd ▸ clamp_pos e b hmax (by omega), b, hb, hd, h2⟩

theorem positive_decision_positive_duration_witness :
    (1 : ℤ) ≤ 35 ∧
      ∃ r, raw_duration scenario4 = some r ∧ 35 = clamp (engine_init 5 60) r ∧ 2 ≤ r :=
  positive_decision_positive_duration (engine_init 5 60) scenario4 35 (by decide) (by decide)
    (by decide!)


/-- Claim C20 fails as stated: with `wind_speed = +inf` (which satisfies
`wind_speed >= 0`), altitude 0, temperature 0, humidity 100 and radiation 5,
all inputs pass `validate_inputs`, the denominator is `+inf`, but the numerator
is a NaN (`inf * 0`), so `calculate_et0` returns `-1` although `et0 > 15` is
false. -/
theorem infinite_wind_counterexample :
    Double.ge (Double.inf false) (ofInt 0) = true ∧
      Double.lt (ofInt 0) (ofInt 45000) = true ∧
      validate_inputs (ofInt 0) (ofInt 100) (ofInt 5) = true ∧
      et0_denominator libm_standin (et0_init libm_standin (Double.inf false) (ofInt 0))
          (ofInt 0) = Double.inf false ∧
      et0_numerator libm_standin (et0_init libm_standin (Double.inf false) (ofInt 0))
          (ofInt 0) (ofInt 100) (ofInt 5) = Double.nan ∧
      Double.ge
          (et0_numerator libm_standin (et0_init libm_standin (Double.inf false) (ofInt 0))
            (ofInt 0) (ofInt 100) (ofInt 5))
          (ofInt 0) = false ∧
      calculate_et0 libm_standin (et0_init libm_standin (Double.inf false) (ofInt 0))
          (ofInt 0) (ofInt 100) (ofInt 5) = ofInt (-1) ∧
      Double.gt
          (Double.div
            (et0_numerator libm_standin (et0_init libm_standin (Double.inf false) (ofInt 0))
              (ofInt 0) (ofInt 100) (ofInt 5))
            (et0_denominator libm_standin (et0_init libm_standin (Double.inf false) (ofInt 0))
              (ofInt 0)))
          (ofInt 15) = false := by
  refine ⟨by decide!, by decide!, by decide!, by decide!, by decide!, by decide!, by decide!,
    by decide!⟩


/-- Claim C20 (amended): for a math library inside the ranges of
`Libm.inRange`, every calculator initialised by `et0_init` with
`wind_speed >= 0` and `altitude < 45000` and every temperature in `[-10, 50]`
has a strictly positive denominator; when moreover the wind speed is finite
and `altitude >= -1000`, then for humidity in `[0, 100]` and `radiation >= 0`
the numerator and the quotient `et0` are `>= 0` and `calculate_et0` returns
`-1` exactly when `et0 > 15`. -/
theorem zero_denominator_guard_unreachable (m : Libm) (hm : m.inRange)
    (wind_speed altitude temperature : Double)
    (hws : Double.ge wind_speed (ofInt 0) = true)
    (halt : Double.lt altitude (ofInt 45000) = true)
    (hT1 : Double.ge temperature (ofInt (-10)) = true)
    (hT2 : Double.le temperature (ofInt 50) = true) :
    Double.gt (et0_denominator m (et0_init m wind_speed altitude) temperature) (ofInt 0) = true ∧
      ∀ humidity radiation,
        Double.le wind_speed (Double.fin dbl_max) = true →
        Double.ge altitude (ofInt (-1000)) = true →
        Double.ge humidity (ofInt 0) = true → Double.le humidity (ofInt 100) = true →
        Double.ge radiation (ofInt 0) = true →
        Double.ge (et0_numerator m (et0_init m wind_speed altitude) temperature humidity
            radiation) (ofInt 0) = true ∧
          Double.ge (Double.div
            (et0_numerator m (et0_init m wind_speed altitude) temperature humidity radiation)
            (et0_denominator m (et0_init m wind_speed altitude) temperature)) (ofInt 0) = true ∧
          calculate_et0 m (et0_init m wind_speed altitude) temperature humidity radiation =
            if Double.gt (Double.div
                (et0_numerator m (et0_init m wind_speed altitude) temperature humidity radiation)
                (et0_denominator m (et0_init m wind_speed altitude) temperature))
              (ofInt 15) = true
            then ofInt (-1)
            else Double.div
              (et0_numerator m (et0_init m wind_speed altitude) temperature humidity radiation)
              (et0_denominator m (et0_init m wind_speed altitude) temperature) := by
  have hT : Double.within (-10) 50 temperature :=
    within_of_bounds ofInt_neg_ten ofInt_fifty rfl rfl hT1 hT2
  have hws0 : Double.le (Double.fin 0) wind_speed = true := by
    rw [← ofInt_zero]; exact hws
  have halt' : Double.le altitude (Double.fin 45000) = true := by
    rw [ofInt_45000] at halt
    exact le_of_lt_fin halt
  constructor
  · have h := denominator_ge m hm hws0 halt' hT
    unfold Double.gt
    rw [ofInt_zero]
    exact lt_of_pos_le (by norm_num) h
  · intro humidity radiation hwsfin haltlo hH1 hH2 hR
    have hws' : Double.within 0 dbl_max wind_speed := within_of_le_le hws0 hwsfin
    have halt'' : Double.within (-1000) 45000 altitude := by
      refine within_of_le_le ?_ halt'
      rw [← ofInt_neg_1000]; exact haltlo
    have hH : Double.within 0 100 humidity :=
      within_of_bounds ofInt_zero ofInt_hundred rfl rfl hH1 hH2
    have hR' : Double.le (Double.fin 0) radiation = true := by
      rw [← ofInt_zero]; exact hR
    have hn := numerator_nonneg m hm hws' halt'' hT hH hR'
    obtain ⟨h1, h2⟩ := calculate_et0_of_valid m hm hws' halt'' hT hH hR'
    refine ⟨?_, ?_, h2⟩
    · unfold Double.ge; rw [ofInt_zero]; exact hn
    · unfold Double.ge; rw [ofInt_zero]; exact h1

theorem zero_denominator_guard_unreachable_witness :
    Double.gt (et0_denominator libm_standin (et0_init libm_standin (lit (3 / 2)) (ofInt 0))
        (ofInt 0)) (ofInt 0) = true ∧
      Double.ge (et0_numerator libm_standin (et0_init libm_standin (lit (3 / 2)) (ofInt 0))
        (ofInt 0) (ofInt 60) (ofInt 8)) (ofInt 0) = true :=
  ⟨(zero_denominator_guard_unreachable libm_standin libm_standin_inRange (lit (3 / 2)) (ofInt 0)
      (ofInt 0) (by decide!) (by decide!) (by decide!) (by decide!)).1,
    ((zero_denominator_guard_unreachable libm_standin libm_standin_inRange (lit (3 / 2))
      (ofInt 0) (ofInt 0) (by decide!) (by decide!) (by decide!) (by decide!)).2 (ofInt 60)
      (ofInt 8) (by decide!) (by decide!) (by decide!) (by decide!) (by decide!)).1⟩

end Umbrella
